import Mathlib

/-
Verification of the opteryx query-compilation and execution core.

This file gives a shallow embedding, in Lean 4, of the parts of the engine
that the verified properties talk about:

  * the schema environment and `merge_schemas`
    (src/opteryx/components/binder/binder.py),
  * identifier resolution (`locate_identifier_in_loaded_schemas`,
    `locate_identifier`),
  * the expression binder (`inner_binder`, `traversive_recursive_bind`),
  * expression identities (`hash_tree`),
  * the predicate rewriter
    (src/opteryx/planner/cost_based_optimizer/strategies/predicate_rewriter.py),
  * the single-key inner hash join
    (src/opteryx/operators/inner_join_node_single.py),
  * the async scan's per-blob loop
    (src/opteryx/operators/async_read_node.py).

Python dictionaries are modelled as association lists in insertion order,
Python exceptions as `Except` values, and in-place mutation as explicit
state threading.  External collaborators that the sources import (orso
schemas, CityHash64, Python's builtin `hash`, the decoders) are modelled
from their interface contracts in the specification; each such definition
carries a doc comment saying so.
-/

namespace Opteryx

/-- Scalar payloads of expression nodes.  The sources carry dynamically
typed Python values; the spec (§9, "Dynamic values") says to model them as a
tagged sum. -/
inductive Value where
  | nullv
  | boolv (b : Bool)
  | intv (n : Int)
  | strv (s : String)
  | listv (vs : List Value)

/-- Python `str()` on a scalar payload, as used by `hash_tree`'s
`CityHash64(str(node.value))` fallback. -/
def Value.toStr : Value → String
  | .nullv => "None"
  | .boolv true => "True"
  | .boolv false => "False"
  | .intv n => toString n
  | .strv s => s
  | .listv vs => "[" ++ String.intercalate ", " (vs.attach.map (fun x => x.1.toStr)) ++ "]"
termination_by v => sizeOf v
decreasing_by
  simp_wf
  have := List.sizeOf_lt_of_mem x.2
  omega

/-- Does an optional payload hold exactly the given string?  Mirrors Python
equality tests such as `predicate.value == "ILike"`. -/
def valueIsStr (v : Option Value) (s : String) : Bool :=
  match v with
  | some (.strv t) => t == s
  | _ => false

/-- Domain type tags (orso `OrsoTypes`).  `untyped` stands for the literal
`0` the binder passes as the `type` of columns it creates. -/
inductive OrsoType where
  | untyped
  | boolean
  | integer
  | double
  | varchar
  | blob
  | timestamp
  | interval
deriving DecidableEq, Repr

/-- Column variants of an orso relation schema (spec §3.2): flat (physical),
constant (literal), function (bound callable) and expression (derived). -/
inductive ColumnKind where
  | flat
  | constant
  | function
  | expression
deriving DecidableEq, Repr

/-- A column descriptor.  Modelled from the spec (§3.2): orso's column
classes, outside these sources, carry a display name, an ordered alias
list, a stable identity, a type tag, a value (constants) and an origin
list (derived columns). -/
structure SchemaColumn where
  kind : ColumnKind := .flat
  name : String
  aliases : List String := []
  identity : String := ""
  typ : OrsoType := .untyped
  value : Option Value := none
  origin : List String := []
  nullable : Bool := true

instance : Inhabited SchemaColumn := ⟨{ name := "" }⟩

/-- `all_names`: the column's name together with all of its aliases
(spec §3.2: "`all_names` is their union"). -/
def SchemaColumn.all_names (c : SchemaColumn) : List String :=
  c.name :: c.aliases

/-- An orso relation schema: a name plus an ordered collection of column
descriptors (spec §3.2). -/
structure RelationSchema where
  name : String
  columns : List SchemaColumn

/-- Modelled from the spec (§3.2, §4.2.1 step 3): orso's
`RelationSchema.find_column` returns the first column whose name or any
alias equals the requested name, else nothing. -/
def RelationSchema.find_column (s : RelationSchema) (value : String) : Option SchemaColumn :=
  s.columns.find? (fun c => value ∈ c.all_names)

/-- Modelled from the spec (§3.2 invariant iv): orso schema addition
(`schema += other`) unions the two column collections by column identity,
keeping the left schema's columns and appending the right schema's columns
whose identity is not yet present. -/
def RelationSchema.union (s t : RelationSchema) : RelationSchema :=
  { s with
    columns :=
      s.columns ++ t.columns.filter (fun c => s.columns.all (fun c0 => c0.identity ≠ c.identity)) }

/-- The errors surfaced by the embedded components (spec §6, error
taxonomy), plus Python's own `TypeError` for the untyped corner of
`merge_schemas`. -/
inductive BindErr where
  | ambiguousIdentifier (identifier : String)
  | columnNotFound (column : String)
  | unexpectedDatasetReference (dataset : String)
  | functionNotFound (function : String)
  | invalidInternalState
  | typeError
  | dataError (msg : String)
deriving DecidableEq, Repr

/-- A value stored under a key of a schema mapping.  The sources annotate
`Dict[str, RelationSchema]` but Python enforces nothing, and
`merge_schemas` explicitly tests `isinstance(value, RelationSchema)`; the
`other` constructor stands for any non-schema value. -/
inductive MVal where
  | schema (s : RelationSchema)
  | other (tag : Nat)

/-- A Python dict in insertion order. -/
abbrev SchemaDict := List (String × MVal)

def dictContains (d : SchemaDict) (k : String) : Bool :=
  d.any (fun kv => kv.1 == k)

def dictGet (d : SchemaDict) (k : String) : Option MVal :=
  (d.find? (fun kv => kv.1 == k)).map (·.2)

/-- Replace the value under an existing key, keeping insertion order
(Python `merged[key] = v` on a present key). -/
def dictSet (d : SchemaDict) (k : String) (v : MVal) : SchemaDict :=
  d.map (fun kv => if kv.1 == k then (k, v) else kv)

/-- One `for key, value in dic.items()` step of `merge_schemas`
(binder.py lines 85-94): a repeated key unions schemas (`merged[key] +=
value`), a repeated key with a non-schema value raises
InvalidInternalStateError, a fresh key is deep-copied in (the deep copy of
an immutable model value is the value itself).  `merged[key] += value`
with a schema on the right but a non-schema already stored raises a plain
Python TypeError. -/
def mergeEntry (merged : SchemaDict) (kv : String × MVal) : Except BindErr SchemaDict :=
  let (key, value) := kv
  if dictContains merged key then
    match value with
    | .schema s =>
        match dictGet merged key with
        | some (.schema old) => .ok (dictSet merged key (.schema (old.union s)))
        | _ => .error .typeError
    | .other _ => .error .invalidInternalState
  else
    .ok (merged ++ [(key, value)])

/-- `merge_schemas(*schemas)` (binder.py lines 70-95).  The `isinstance(dic,
dict)` guard of the source is made unrepresentable by the typing of the
model. -/
def merge_schemas (schemas : List SchemaDict) : Except BindErr SchemaDict :=
  schemas.foldlM (fun acc d => d.foldlM mergeEntry acc) []

/-- Modelled from the spec (§3.1): the node-type tags of expression nodes.
`NodeType` lives in `opteryx.managers.expression`, outside the source files
embedded here; the spec lists its members as thirteen distinct values, and
the predicate rewriter tests `AND`, `OR` and `XOR` separately from
`BINARY_OPERATOR` and `COMPARISON_OPERATOR`. -/
inductive NodeType where
  | IDENTIFIER
  | LITERAL
  | WILDCARD
  | FUNCTION
  | AGGREGATOR
  | BINARY_OPERATOR
  | COMPARISON_OPERATOR
  | AND
  | OR
  | XOR
  | EXPRESSION_LIST
  | SUBQUERY
  | EVALUATED
deriving DecidableEq, Repr

/-- The non-recursive attributes of an expression node (spec §3.1).
`opteryx.models.Node` is an attribute bag whose missing attributes read as
`None`; the attributes exercised by the embedded components are listed.
`function` receives the bound callable's registry name. -/
structure NodeInfo where
  value : Option Value := none
  nalias : Option String := none
  source : Option String := none
  source_column : Option String := none
  current_name : Option String := none
  query_column : Option String := none
  schema_column : Option SchemaColumn := none
  identity : Option String := none
  do_not_create_column : Bool := false
  source_connector : List String := []
  typ : OrsoType := .untyped
  sub_type : Option OrsoType := none
  function : Option String := none

/-- An expression node (spec §3.1): a node type, the three positional
children `left`, `right`, `centre`, the ordered `parameters` list, the
node list an `EXPRESSION_LIST` stores as its `value` (kept in a separate
slot because the model's scalar payloads live in `info.value`), and the
remaining attributes. -/
inductive Node where
  | mk (node_type : NodeType)
       (left : Option Node)
       (right : Option Node)
       (centre : Option Node)
       (parameters : List Node)
       (valueNodes : List Node)
       (info : NodeInfo)

instance : Inhabited Node := ⟨.mk .LITERAL none none none [] [] {}⟩

def Node.node_type : Node → NodeType | .mk t _ _ _ _ _ _ => t
def Node.left : Node → Option Node | .mk _ l _ _ _ _ _ => l
def Node.right : Node → Option Node | .mk _ _ r _ _ _ _ => r
def Node.centre : Node → Option Node | .mk _ _ _ c _ _ _ => c
def Node.parameters : Node → List Node | .mk _ _ _ _ ps _ _ => ps
def Node.valueNodes : Node → List Node | .mk _ _ _ _ _ vs _ => vs
def Node.info : Node → NodeInfo | .mk _ _ _ _ _ _ i => i

def Node.value (n : Node) : Option Value := n.info.value
def Node.nalias (n : Node) : Option String := n.info.nalias
def Node.source (n : Node) : Option String := n.info.source
def Node.source_column (n : Node) : Option String := n.info.source_column
def Node.current_name (n : Node) : Option String := n.info.current_name
def Node.query_column (n : Node) : Option String := n.info.query_column
def Node.schema_column (n : Node) : Option SchemaColumn := n.info.schema_column
def Node.identity (n : Node) : Option String := n.info.identity
def Node.do_not_create_column (n : Node) : Bool := n.info.do_not_create_column
def Node.source_connector (n : Node) : List String := n.info.source_connector
def Node.typ (n : Node) : OrsoType := n.info.typ
def Node.sub_type (n : Node) : Option OrsoType := n.info.sub_type

def Node.withNodeType (n : Node) (t : NodeType) : Node :=
  match n with | .mk _ l r c ps vs i => .mk t l r c ps vs i
def Node.withLeft (n : Node) (l : Option Node) : Node :=
  match n with | .mk t _ r c ps vs i => .mk t l r c ps vs i
def Node.withRight (n : Node) (r : Option Node) : Node :=
  match n with | .mk t l _ c ps vs i => .mk t l r c ps vs i
def Node.withCentre (n : Node) (c : Option Node) : Node :=
  match n with | .mk t l r _ ps vs i => .mk t l r c ps vs i
def Node.withParameters (n : Node) (ps : List Node) : Node :=
  match n with | .mk t l r c _ vs i => .mk t l r c ps vs i
def Node.withValueNodes (n : Node) (vs : List Node) : Node :=
  match n with | .mk t l r c ps _ i => .mk t l r c ps vs i
def Node.withInfo (n : Node) (i : NodeInfo) : Node :=
  match n with | .mk t l r c ps vs _ => .mk t l r c ps vs i

def Node.withValue (n : Node) (v : Option Value) : Node :=
  n.withInfo { n.info with value := v }
def Node.withSource (n : Node) (s : Option String) : Node :=
  n.withInfo { n.info with source := s }
def Node.withQueryColumn (n : Node) (q : Option String) : Node :=
  n.withInfo { n.info with query_column := q }
def Node.withSchemaColumn (n : Node) (c : Option SchemaColumn) : Node :=
  n.withInfo { n.info with schema_column := c }
def Node.withTyp (n : Node) (t : OrsoType) : Node :=
  n.withInfo { n.info with typ := t }
def Node.withSubType (n : Node) (t : Option OrsoType) : Node :=
  n.withInfo { n.info with sub_type := t }
def Node.withFunction (n : Node) (f : Option String) : Node :=
  n.withInfo { n.info with function := f }

/-- Python `s.startswith(p)`, as a structurally evaluating prefix test. -/
def strStartsWith (s p : String) : Bool :=
  p.data.isPrefixOf s.data

/-- Python truthiness of an optional string: `None` and `""` are falsy. -/
def truthyStr : Option String → Bool
  | none => false
  | some s => s ≠ ""

/-- Python `str()` on an optional string: `str(None)` is `"None"`. -/
def strOfOptStr : Option String → String
  | none => "None"
  | some s => s

/-- Renders a node type for the modelled expression formatter. -/
def NodeType.tag : NodeType → String
  | .IDENTIFIER => "ID"
  | .LITERAL => "LIT"
  | .WILDCARD => "WILD"
  | .FUNCTION => "FN"
  | .AGGREGATOR => "AGG"
  | .BINARY_OPERATOR => "BINOP"
  | .COMPARISON_OPERATOR => "CMP"
  | .AND => "AND"
  | .OR => "OR"
  | .XOR => "XOR"
  | .EXPRESSION_LIST => "LIST"
  | .SUBQUERY => "SUBQ"
  | .EVALUATED => "EVAL"

mutual

/-- Modelled from the spec: `format_expression(node, True)` (in
`opteryx.managers.expression`, outside the embedded sources) renders an
expression deterministically from its semantic shape; the binder uses the
rendering as the canonical derived-column name and `hash_tree` feeds it to
the outer hash.  The model renders the node type, the scalar payload, the
identifier text and every child, which is deterministic and injective
enough for the properties proved here. -/
def format_expression : Node → String
  | .mk t l r c ps vs i =>
      t.tag ++ "(" ++ (match i.value with | some v => v.toStr | none => "") ++ ";"
        ++ strOfOptStr i.source_column ++ ";"
        ++ formatOptChild l ++ ";" ++ formatOptChild r ++ ";" ++ formatOptChild c ++ ";"
        ++ formatChildren ps ++ ";" ++ formatChildren vs ++ ")"
termination_by n => (sizeOf n, 1)

def formatOptChild : Option Node → String
  | some x => format_expression x
  | none => ""
termination_by o => (sizeOf o, 0)

def formatChildren : List Node → String
  | [] => ""
  | x :: rest => format_expression x ++ "," ++ formatChildren rest
termination_by l => (sizeOf l, 0)

end

/-- The binding context (spec §3.4): the schema environment in insertion
order, plus the connection's session-variable store
(`connection.variables.as_column` is modelled as a lookup returning a
ready-made constant column, per spec §6 "Variable store"). -/
structure BindingContext where
  schemas : List (String × RelationSchema)
  session_variables : List (String × SchemaColumn) := []

/-- Python `node.current_name[0] == "@"`.  The source indexes the string
directly; the model reads the first character when there is one. -/
def startsWithAt (s : Option String) : Bool :=
  match s with
  | some s => s.data.head? == some '@'
  | none => false

/-- The loop body of `locate_identifier_in_loaded_schemas` (binder.py lines
113-124): scan the schemas in order, remember the first schema whose
`find_column` matches, and raise AmbiguousIdentifierError on a second
matching schema. -/
def locate_search (value : String) (column : Option SchemaColumn)
    (rel : Option RelationSchema) :
    List (String × RelationSchema) →
      Except BindErr (Option SchemaColumn × Option RelationSchema)
  | [] => .ok (column, rel)
  | (_, schema) :: rest =>
      match schema.find_column value with
      | some found =>
          if column.isSome ∧ rel.isSome then
            .error (.ambiguousIdentifier value)
          else
            locate_search value (some found) (some schema) rest
      | none => locate_search value column rel rest

/-- `locate_identifier_in_loaded_schemas(value, schemas)` (binder.py lines
98-124). -/
def locate_identifier_in_loaded_schemas (value : String)
    (schemas : List (String × RelationSchema)) :
    Except BindErr (Option SchemaColumn × Option RelationSchema) :=
  locate_search value none none schemas

/-- A LITERAL node bound to a constant column, as built by
`create_variable_node` and by the found-variable branch of
`locate_identifier` (binder.py lines 147-156 and 197-204). -/
def mkLiteralNode (col : SchemaColumn) : Node :=
  .mk .LITERAL none none none [] []
    { schema_column := some col, typ := col.typ, value := col.value }

/-- `create_variable_node(node, context)` (binder.py lines 147-156):
`connection.variables.as_column(node.value)` is a lookup in the session
variable store; a missing variable is a store-level error. -/
def create_variable_node (node : Node) (context : BindingContext) :
    Except BindErr Node :=
  match node.value with
  | some (.strv name) =>
      match context.session_variables.find? (fun kv => kv.1 == name) with
      | some (_, col) => .ok (mkLiteralNode col)
      | none => .error (.dataError "variable not found")
  | _ => .error (.dataError "variable not found")

/-- `context.schemas["$derived"].columns.append(col)`: the in-place append
to the `$derived` schema, written as a functional update of the
environment. -/
def appendDerived (schemas : List (String × RelationSchema)) (col : SchemaColumn) :
    List (String × RelationSchema) :=
  schemas.map (fun kv =>
    if kv.1 == "$derived" then (kv.1, { kv.2 with columns := kv.2.columns ++ [col] }) else kv)

/-- `column.aliases.append(node.alias)`: the source mutates the found column
object in place, which is visible through every schema of the environment
holding that object.  Column identities are globally unique within a query
(spec §3.2 invariant i), so the model locates each shared occurrence by
identity and replaces it. -/
def mutateColumnAliases (schemas : List (String × RelationSchema))
    (ident : String) (newCol : SchemaColumn) : List (String × RelationSchema) :=
  schemas.map (fun kv =>
    (kv.1, { kv.2 with
              columns := kv.2.columns.map (fun c => if c.identity = ident then newCol else c) }))

/-- `locate_identifier(node, context)` (binder.py lines 127-220). -/
def locate_identifier (node : Node) (context : BindingContext) :
    Except BindErr (Node × BindingContext) := do
  let candidate_schemas :=
    if truthyStr node.source then
      context.schemas.filter (fun kv => strStartsWith kv.1 "$shared" || some kv.1 == node.source)
    else
      context.schemas
  if candidate_schemas.isEmpty then
    throw (.unexpectedDatasetReference (strOfOptStr node.source))
  let found ← locate_identifier_in_loaded_schemas (strOfOptStr node.source_column)
      candidate_schemas
  match found with
  | (none, _) =>
      if startsWithAt node.current_name then do
        let newNode ← create_variable_node node context
        let context := { context with
          schemas := appendDerived context.schemas (newNode.schema_column.getD default) }
        return (newNode, context)
      else
        throw (.columnNotFound (strOfOptStr node.source_column))
  | (some column, rel) =>
      if startsWithAt node.current_name then
        return (mkLiteralNode column, context)
      else
        -- update node.source to the found relation name when it was unset
        let node :=
          if ¬ truthyStr node.source then
            node.withSource (some ((rel.map (·.name)).getD ""))
          else node
        -- append an unknown alias to the column, in place
        let (column, context) :=
          if truthyStr node.nalias ∧ (node.nalias.getD "") ∉ column.all_names then
            let column' := { column with aliases := column.aliases ++ [node.nalias.getD ""] }
            (column',
             { context with schemas := mutateColumnAliases context.schemas column.identity column' })
          else (column, context)
        let node := node.withSchemaColumn (some column)
        -- single-origin columns propagate their origin to node.source
        let node :=
          if column.origin.length == 1 then node.withSource column.origin.head? else node
        return (node, context)

/-- Python `hex(h)[2:]`: the lowercase hexadecimal rendering without the
`0x` prefix. -/
def toHexStr (n : Nat) : String :=
  ⟨Nat.toDigits 16 n⟩

mutual

/-- The `inner` worker of `hash_tree` (binder.py lines 42-64): XOR the
inner hashes of `left`, `right`, `centre` and every parameter into an
accumulator that starts at 0; when the accumulator is still 0, fall back,
in order, to the hash of the node's own identity, of its schema column's
identity, of the stringified value, and — for WILDCARD nodes — of
`str(node.source) + "*"`; otherwise return the accumulator.  `ch` stands
for the external deterministic `CityHash64`. -/
def innerHash (ch : String → Nat) : Node → Nat
  | .mk t l r c ps _ i =>
      let h : Nat := 0
      let h := h ^^^ innerHashOpt ch l
      let h := h ^^^ innerHashOpt ch r
      let h := h ^^^ innerHashOpt ch c
      let h := h ^^^ innerHashList ch ps
      if h = 0 ∧ i.identity.isSome then
        ch (i.identity.getD "")
      else if h = 0 ∧ i.schema_column.isSome then
        ch ((i.schema_column.getD default).identity)
      else if h = 0 ∧ i.value.isSome then
        ch ((i.value.getD .nullv).toStr)
      else if h = 0 ∧ t = NodeType.WILDCARD then
        ch (strOfOptStr i.source ++ "*")
      else
        h
termination_by n => (sizeOf n, 1)

/-- `if node.left: _hash ^= inner(node.left)`: a missing child contributes
nothing to the XOR accumulator. -/
def innerHashOpt (ch : String → Nat) : Option Node → Nat
  | some x => innerHash ch x
  | none => 0
termination_by o => (sizeOf o, 0)

/-- `for parameter in node.parameters: _hash ^= inner(parameter)`. -/
def innerHashList (ch : String → Nat) : List Node → Nat
  | [] => 0
  | x :: rest => innerHash ch x ^^^ innerHashList ch rest
termination_by l => (sizeOf l, 0)

end

/-- `hash_tree(node)` (binder.py lines 39-67): the hash of the formatted
expression XORed with the inner hash, rendered as a hex string. -/
def hash_tree (ch : String → Nat) (node : Node) : String :=
  toHexStr (ch (format_expression node) ^^^ innerHash ch node)

/-- The XOR-fold of the children's inner hashes alone, before any
fallback: the quantity the specification calls "the fold" when describing
`hash_tree`. -/
def childFold (ch : String → Nat) (n : Node) : Nat :=
  innerHashOpt ch n.left ^^^ innerHashOpt ch n.right ^^^ innerHashOpt ch n.centre
    ^^^ innerHashList ch n.parameters

/-- The fallback chain of `hash_tree` as the specification words it: node
identity first, then schema-column identity, then stringified value, then
`source + "*"` for WILDCARD nodes; when none of the four applies the inner
hash stays 0. -/
def specInnerFallback (ch : String → Nat) (n : Node) : Nat :=
  match n.identity with
  | some ident => ch ident
  | none =>
      match n.schema_column with
      | some sc => ch sc.identity
      | none =>
          match n.value with
          | some v => ch v.toStr
          | none =>
              if n.node_type = NodeType.WILDCARD then ch (strOfOptStr n.source ++ "*") else 0

/-- Modelled from the spec (§6, "Function registry"): the combined scalar
function and aggregator registry is a flat mapping from uppercase name to
callable; the model keeps the names. -/
def COMBINED_FUNCTIONS : List String :=
  ["ABS", "AVG", "COUNT", "ENDS_WITH", "LENGTH", "MAX", "MIN", "SEARCH", "STARTS_WITH",
   "SUM", "UPPER"]

/-- Modelled from the spec: orso assigns every newly created column a
stable identity; the model derives the identity of a constant column
deterministically from its name. -/
def constIdentity (column_name : String) : String :=
  "$id:" ++ column_name

def liftDict (d : List (String × RelationSchema)) : SchemaDict :=
  d.map (fun kv => (kv.1, MVal.schema kv.2))

def lowerDict (d : SchemaDict) : List (String × RelationSchema) :=
  d.filterMap (fun kv => match kv.2 with | .schema s => some (kv.1, s) | .other _ => none)

/-- `merge_schemas(*[ctx.schemas for ctx in new_contexts])` as called from
the binder, whose contexts hold genuine schemas only. -/
def mergeSchemasR (ds : List (List (String × RelationSchema))) :
    Except BindErr (List (String × RelationSchema)) :=
  (merge_schemas (ds.map liftDict)).map lowerDict

/-- The cached-derived-column scan of `inner_binder` (binder.py lines
277-284): the first schema of the environment holding a column of the
candidate name wins. -/
def findInSchemas (schemas : List (String × RelationSchema)) (name : String) :
    Option SchemaColumn :=
  schemas.findSome? (fun kv => kv.2.find_column name)

/-- `[node.alias] if node.alias else []`. -/
def aliasListOf (i : NodeInfo) : List String :=
  if truthyStr i.nalias then [i.nalias.getD ""] else []

/-- `node.alias or column_name`. -/
def aliasOr (i : NodeInfo) (column_name : String) : String :=
  if truthyStr i.nalias then i.nalias.getD "" else column_name

/-- The FlatColumn re-creation of a previously derived column (binder.py
lines 305-322): the entry of `$derived` with the same identity is removed
and the re-created column appended.  (The source wraps the old alias list
in a further list; the model keeps the flat list.) -/
def replaceDerived (schemas : List (String × RelationSchema)) (col : SchemaColumn) :
    List (String × RelationSchema) :=
  schemas.map (fun kv =>
    if kv.1 == "$derived" then
      (kv.1, { kv.2 with
                columns := (kv.2.columns.filter (fun c => c.identity ≠ col.identity)) ++ [col] })
    else kv)

/-- `schemas["$derived"].find_column(column_name)`. -/
def derivedFind (schemas : List (String × RelationSchema)) (name : String) :
    Option SchemaColumn :=
  (schemas.find? (fun kv => kv.1 == "$derived")).bind (fun kv => kv.2.find_column name)

mutual

/-- `inner_binder(node, context)` (binder.py lines 240-361): early exit for
bound nodes, lookup for identifiers, member binding for expression lists,
reuse of cached derived columns, recursion into the children, and
materialization of a derived column according to the node kind.  `ch`
stands for the external deterministic `CityHash64` that `hash_tree`
consumes.  The EXPRESSION_LIST member replacement is carried alongside the
recursion (the recursion itself never touches the member list), so the
recursive call receives the structurally smaller original node. -/
def inner_binder (ch : String → Nat) (node : Node) (context : BindingContext) :
    Except BindErr (Node × BindingContext) :=
  match node with
  | .mk t l r c ps vs i =>
    -- Early exit for columns that are already bound.
    if i.schema_column.isSome then .ok (.mk t l r c ps vs i, context)
    else if t = .IDENTIFIER ∨ t = .EVALUATED then
      locate_identifier (.mk t l r c ps vs i) context
    else do
      -- Expression lists (how CASE is represented): bind every member,
      -- merge the member contexts' schemas.
      let (newVs, context) ←
        if t = .EXPRESSION_LIST then do
          let pairs ← bindEach ch vs context
          let merged ← mergeSchemasR (pairs.map (fun p => p.2.schemas))
          pure (pairs.map (fun p => p.1), { context with schemas := merged })
        else
          pure (vs, context)
      let nodeV := Node.mk t l r c ps newVs i
      -- Cached derived columns: `node.query_column or format_expression(node, True)`.
      let column_name :=
        if truthyStr i.query_column then i.query_column.getD "" else format_expression nodeV
      match findInSchemas context.schemas column_name with
      | some found_column =>
          .ok ((nodeV.withSchemaColumn (some found_column)).withQueryColumn
                 (some (aliasOr i column_name)),
               context)
      | none => do
          -- do the sub trees off this node
          let (nodeT, context) ← traversive_recursive_bind ch (.mk t l r c ps vs i) context
          let node := nodeT.withValueNodes newVs
          -- Now do the node we're at
          if t = .LITERAL then
            let schema_column : SchemaColumn :=
              { kind := .constant, name := column_name, aliases := aliasListOf i,
                typ := i.typ, value := i.value, nullable := false,
                identity := constIdentity column_name }
            let context := { context with
              schemas := appendDerived context.schemas schema_column }
            .ok ((node.withSchemaColumn (some schema_column)).withQueryColumn
                   (some (aliasOr i column_name)),
                 context)
          else if t ≠ .SUBQUERY ∧ ¬ i.do_not_create_column then
            match derivedFind context.schemas column_name with
            | some prior =>
                -- a prior derived column of this name: recreate as a flat
                -- column with the identity preserved and relabel the node
                let schema_column : SchemaColumn :=
                  { kind := .flat, name := column_name, aliases := prior.aliases,
                    typ := .untyped, identity := prior.identity }
                let context := { context with
                  schemas := replaceDerived context.schemas schema_column }
                .ok ((((node.withSchemaColumn (some schema_column)).withQueryColumn
                        (some (aliasOr i column_name))).withNodeType .EVALUATED),
                     context)
            | none =>
                if t = .FUNCTION ∨ t = .AGGREGATOR then
                  let fname := match i.value with | some (.strv s) => s | _ => ""
                  if fname ∈ COMBINED_FUNCTIONS then
                    let identity := hash_tree ch node
                    let schema_column : SchemaColumn :=
                      { kind := .function, name := column_name, typ := .untyped,
                        aliases := aliasListOf i, identity := identity }
                    let context := { context with
                      schemas := appendDerived context.schemas schema_column }
                    .ok ((((node.withFunction (some fname)).withSchemaColumn
                            (some schema_column)).withQueryColumn
                            (some (aliasOr i column_name))),
                         context)
                  else
                    .error (.functionNotFound fname)
                else
                  let identity := hash_tree ch node
                  let schema_column : SchemaColumn :=
                    { kind := .expression, name := column_name, aliases := aliasListOf i,
                      typ := .untyped, identity := identity }
                  let context := { context with
                    schemas := appendDerived context.schemas schema_column }
                  .ok ((node.withSchemaColumn (some schema_column)).withQueryColumn
                         (some (aliasOr i column_name)),
                       context)
          else
            .ok (node, context)
termination_by (sizeOf node, 2)

/-- `traversive_recursive_bind(node, context)` (binder.py lines 223-237):
bind `left`, then `right`, then `centre`, then — when present — every
parameter against the context as of the start of the parameter pass,
merging the parameter contexts' schemas. -/
def traversive_recursive_bind (ch : String → Nat) (node : Node) (context : BindingContext) :
    Except BindErr (Node × BindingContext) :=
  match node with
  | .mk t l r c ps vs i => do
      let (l, context) ← bindOptChild ch l context
      let (r, context) ← bindOptChild ch r context
      let (c, context) ← bindOptChild ch c context
      if ps.isEmpty then
        pure (Node.mk t l r c ps vs i, context)
      else do
        let pairs ← bindEach ch ps context
        let merged ← mergeSchemasR (pairs.map (fun p => p.2.schemas))
        pure (Node.mk t l r c (pairs.map (fun p => p.1)) vs i,
              { context with schemas := merged })
termination_by (sizeOf node, 1)

/-- `if node.left: node.left, context = inner_binder(node.left, context)`:
a present child is bound, a missing child is left alone. -/
def bindOptChild (ch : String → Nat) (o : Option Node) (context : BindingContext) :
    Except BindErr (Option Node × BindingContext) :=
  match o with
  | some x => do
      let p ← inner_binder ch x context
      pure (some p.1, p.2)
  | none => pure (none, context)
termination_by (sizeOf o, 0)

/-- The generator `(inner_binder(parm, context) for parm in ...)`: every
element is bound against the incoming context and the `(node, context)`
pairs are collected in order. -/
def bindEach (ch : String → Nat) (nodes : List Node) (context : BindingContext) :
    Except BindErr (List (Node × BindingContext)) :=
  match nodes with
  | [] => .ok []
  | n :: rest => do
      let p ← inner_binder ch n context
      let tailPairs ← bindEach ch rest context
      pure (p :: tailPairs)
termination_by (sizeOf nodes, 0)

end

/-- `re.sub(r"%+", "%", s)`: collapse every run of `%` to a single `%`. -/
def collapseRuns : List Char → List Char
  | [] => []
  | '%' :: '%' :: rest => collapseRuns ('%' :: rest)
  | ch :: rest => ch :: collapseRuns rest
termination_by l => l.length

/-- `"%%" in s`. -/
def hasDoubledPercent : List Char → Bool
  | '%' :: '%' :: _ => true
  | _ :: rest => hasDoubledPercent rest
  | [] => false

/-- The LIKE pattern of a predicate: the string payload of the right
operand.  The source reads `predicate.right.value` directly and would
raise on a non-string payload; every guard consulting the pattern is false
in the model when no string pattern is present. -/
def rightPattern (p : Node) : Option String :=
  match p.right with
  | some r =>
      match r.value with
      | some (.strv s) => some s
      | _ => none
  | none => none

def patternHasDoubled (p : Node) : Bool :=
  match rightPattern p with
  | some s => hasDoubledPercent s.data
  | none => false

/-- `"%" not in pattern and "_" not in pattern`. -/
def noWildcardPattern (p : Node) : Bool :=
  match rightPattern p with
  | some s => !(s.data.contains '%') && !(s.data.contains '_')
  | none => false

/-- `predicate.left.source_connector and
predicate.left.source_connector.isdisjoint({"Sql", "Cql"})`: Python
truthiness makes an empty connector set fail the test. -/
def connectorDisjoint (p : Node) : Bool :=
  match p.left with
  | some ln =>
      !ln.source_connector.isEmpty
        && ln.source_connector.all (fun s => s ≠ "Sql" && s ≠ "Cql")
  | none => false

def rightIsLiteral (p : Node) : Bool :=
  (p.right.map (·.node_type)) == some NodeType.LITERAL

def firstIsPct (p : Node) : Bool :=
  match rightPattern p with
  | some s => s.data.head? == some '%'
  | none => false

def lastIsPct (p : Node) : Bool :=
  match rightPattern p with
  | some s => s.data.getLast? == some '%'
  | none => false

def pctCount (p : Node) : Nat :=
  match rightPattern p with
  | some s => s.data.count '%'
  | none => 0

/-- `len(predicate.right.value)`: defined for list and string payloads. -/
def rightLen (p : Node) : Option Nat :=
  match p.right with
  | some r =>
      match r.value with
      | some (.listv vs) => some vs.length
      | some (.strv s) => some s.length
      | _ => none
  | none => none

/-- A fresh BOOLEAN literal node,
`Node(node_type=NodeType.LITERAL, type=OrsoTypes.BOOLEAN, value=ignore_case)`. -/
def boolLiteral (b : Bool) : Node :=
  .mk .LITERAL none none none [] [] { typ := .boolean, value := some (.boolv b) }

/-- `remove_adjacent_wildcards(predicate)` (predicate_rewriter.py lines
55-64). -/
def remove_adjacent_wildcards (predicate : Node) : Node :=
  match predicate.right with
  | some r =>
      match r.value with
      | some (.strv s) =>
          if hasDoubledPercent s.data then
            predicate.withRight (some (r.withValue (some (.strv (String.mk (collapseRuns s.data))))))
          else predicate
      | _ => predicate
  | none => predicate

/-- `rewrite_to_starts_with(predicate)` (predicate_rewriter.py lines
67-83): strip the trailing `%`, turn the node into the STARTS_WITH
function call with the `ignore_case` flag telling ILike from Like. -/
def rewrite_to_starts_with (predicate : Node) : Node :=
  let ignore_case := valueIsStr predicate.value "ILike"
  match predicate.right with
  | some r =>
      let s := match r.value with | some (.strv s) => s | _ => ""
      let r := r.withValue (some (.strv (s.dropRight 1)))
      (((predicate.withRight (some r)).withNodeType .FUNCTION).withValue
          (some (.strv "STARTS_WITH"))).withParameters
        [predicate.left.getD default, r, boolLiteral ignore_case]
  | none => predicate

/-- `rewrite_to_ends_with(predicate)` (predicate_rewriter.py lines
86-102): strip the leading `%`. -/
def rewrite_to_ends_with (predicate : Node) : Node :=
  let ignore_case := valueIsStr predicate.value "ILike"
  match predicate.right with
  | some r =>
      let s := match r.value with | some (.strv s) => s | _ => ""
      let r := r.withValue (some (.strv (s.drop 1)))
      (((predicate.withRight (some r)).withNodeType .FUNCTION).withValue
          (some (.strv "ENDS_WITH"))).withParameters
        [predicate.left.getD default, r, boolLiteral ignore_case]
  | none => predicate

/-- `rewrite_to_search(predicate)` (predicate_rewriter.py lines 105-121):
strip one `%` from either end. -/
def rewrite_to_search (predicate : Node) : Node :=
  let ignore_case := valueIsStr predicate.value "ILike"
  match predicate.right with
  | some r =>
      let s := match r.value with | some (.strv s) => s | _ => ""
      let r := r.withValue (some (.strv ((s.drop 1).dropRight 1)))
      (((predicate.withRight (some r)).withNodeType .FUNCTION).withValue
          (some (.strv "SEARCH"))).withParameters
        [predicate.left.getD default, r, boolLiteral ignore_case]
  | none => predicate

/-- `rewrite_in_to_eq(predicate)` (predicate_rewriter.py lines 124-135):
pop the single element of the IN list into `right.value`, take the type
from `sub_type` (defaulting to VARCHAR), and swap the operator per
`IN_REWRITES`. -/
def rewrite_in_to_eq (predicate : Node) : Node :=
  let newOp := if valueIsStr predicate.value "InList" then "Eq" else "NotEq"
  match predicate.right with
  | some r =>
      match r.value with
      | some (.listv vs) =>
          let elem := (vs.getLast?).getD .nullv
          let r := ((r.withValue (some elem)).withTyp (r.sub_type.getD .varchar)).withSubType none
          (predicate.withValue (some (.strv newOp))).withRight (some r)
      | _ => predicate
  | none => predicate

/-- Modelled from the spec: `determine_type` (the binder operator map,
outside the embedded sources) resolves the domain type of a bound
expression; the rewriter consults it only to recognise INTERVAL-typed
operands, which the model reads off the node's type tag. -/
def determine_type (n : Node) : OrsoType :=
  n.typ

/-- `reorder_interval_calc(predicate)` (predicate_rewriter.py lines
138-174): `end - start <cmp> interval` becomes `end <cmp> start +
interval`, rebuilding the inner node as a TIMESTAMP expression and the
outer one as a BOOLEAN comparison.  (When the inner operator is not
`Minus` the source falls off the function and returns `None`; that path is
unreachable from the guarded call site and the model returns the predicate
unchanged there.) -/
def reorder_interval_calc (predicate : Node) : Node :=
  let leftNode := predicate.left.getD default
  let date_start := leftNode.right.getD default
  let date_end := leftNode.left.getD default
  let interval := predicate.right.getD default
  if valueIsStr leftNode.value "Minus" then
    let new_binary_op : Node :=
      .mk .BINARY_OPERATOR (some date_start) (some interval) none [] []
        { value := some (.strv "Plus") }
    let binary_op_column_name := format_expression new_binary_op
    let new_binary_op := new_binary_op.withSchemaColumn
      (some { kind := .expression, name := binary_op_column_name, typ := .timestamp })
    let predicate :=
      ((predicate.withNodeType .COMPARISON_OPERATOR).withRight (some new_binary_op)).withLeft
        (some date_end)
    let predicate_column_name := format_expression predicate
    predicate.withSchemaColumn
      (some { kind := .expression, name := predicate_column_name, typ := .boolean })
  else
    predicate

/-- The dispatcher blocks of `_rewrite_predicate` that follow the LIKE
family (predicate_rewriter.py lines 222-240): AnyOpEq against a literal
becomes InList, a single-element IN list becomes an equality, and an
INTERVAL comparison over a `Minus` is reordered. -/
def afterLikeBlocks (p : Node) : Node :=
  let p :=
    if valueIsStr p.value "AnyOpEq" && rightIsLiteral p then
      p.withValue (some (.strv "InList"))
    else p
  if (valueIsStr p.value "InList" || valueIsStr p.value "NotInList") && rightIsLiteral p
      && (rightLen p == some 1) then
    rewrite_in_to_eq p
  else if (p.node_type == NodeType.COMPARISON_OPERATOR)
      && ((p.left.map (·.node_type)) == some NodeType.BINARY_OPERATOR)
      && ((p.left.map determine_type) == some OrsoType.interval)
      && ((p.right.map determine_type) == some OrsoType.interval) then
    reorder_interval_calc p
  else
    p

/-- The dispatcher blocks of `_rewrite_predicate` that run once the guard
and the (dead) AND/OR/XOR recursion are past (predicate_rewriter.py lines
198-240): collapse doubled wildcards, rewrite wildcard-free LIKE/NotLike
to Eq/NotEq, rewrite single-`%` and `%…%` LIKE/ILike patterns over
non-pushdown connectors to STARTS_WITH / ENDS_WITH / SEARCH (returning
early), and otherwise fall through to the IN and interval blocks. -/
def dispatchBlocks (p0 : Node) : Node :=
  -- collapse adjacent wildcards in LIKE-family patterns
  let p :=
    if (valueIsStr p0.value "Like" || valueIsStr p0.value "ILike"
          || valueIsStr p0.value "NotLike" || valueIsStr p0.value "NotILike")
        && patternHasDoubled p0 then
      remove_adjacent_wildcards p0
    else p0
  -- LIKE / NotLike without wildcards become Eq / NotEq
  let p :=
    if (valueIsStr p.value "Like" || valueIsStr p.value "NotLike")
        && noWildcardPattern p then
      p.withValue (some (.strv (if valueIsStr p.value "Like" then "Eq" else "NotEq")))
    else p
  -- LIKE / ILike over a non-pushdown connector against a literal
  if (valueIsStr p.value "Like" || valueIsStr p.value "ILike")
      && connectorDisjoint p && rightIsLiteral p then
    if lastIsPct p && (pctCount p == 1) then rewrite_to_starts_with p
    else if firstIsPct p && (pctCount p == 1) then rewrite_to_ends_with p
    else if firstIsPct p && lastIsPct p && (pctCount p == 2) then rewrite_to_search p
    else afterLikeBlocks p
  else
    afterLikeBlocks p

mutual

/-- `_rewrite_predicate(predicate)` (predicate_rewriter.py lines 189-240):
the guard at the top returns every node that is not a BINARY_OPERATOR or
COMPARISON_OPERATOR unchanged; the AND/OR/XOR recursion block that follows
it is transcribed from the source even though the guard has already
returned for those node types; the dispatcher blocks then run in order. -/
def _rewrite_predicate (predicate : Node) : Node :=
  match predicate with
  | .mk t l r c ps vs i =>
      -- after rewrites, some filters aren't actually predicates
      if t ∉ [NodeType.BINARY_OPERATOR, NodeType.COMPARISON_OPERATOR] then
        .mk t l r c ps vs i
      else
        -- recurse into AND / OR / XOR first (source lines 194-196; dead
        -- under the guard above)
        let l := if t ∈ [NodeType.AND, NodeType.OR, NodeType.XOR] then rewriteOptChild l else l
        let r := if t ∈ [NodeType.AND, NodeType.OR, NodeType.XOR] then rewriteOptChild r else r
        dispatchBlocks (Node.mk t l r c ps vs i)
termination_by (sizeOf predicate, 1)

/-- `predicate.left = _rewrite_predicate(predicate.left)` on an optional
child. -/
def rewriteOptChild : Option Node → Option Node
  | some x => some (_rewrite_predicate x)
  | none => none
termination_by o => (sizeOf o, 0)

end

/-! ### Single-key inner hash join (inner_join_node_single.py)

The join operates on one key column per side.  A column is modelled at the
logical level as a list of optional key values in row order: `none` is a
row whose null-bitmap bit is clear, `some v` a valid row.  The compiled
`HashTable` (outside the embedded sources) is modelled from the spec
(§4.6): a multi-map from key to row indices preserving insertion order.
Python's builtin `hash` — applied by the source to byte slices and array
scalars — is an explicit parameter `h`. -/

/-- The spec's hash table: insertion-ordered `(key, row)` pairs. -/
abbrev HashTableM (K : Type) := List (K × Nat)

/-- `HashTable.insert(key, row)`. -/
def ht_insert {K : Type} (ht : HashTableM K) (k : K) (row : Nat) : HashTableM K :=
  ht ++ [(k, row)]

/-- `HashTable.get(key)`: every row stored under the key, in insertion
order. -/
def ht_get {K : Type} [BEq K] (ht : HashTableM K) (k : K) : List Nat :=
  (ht.filter (fun kv => kv.1 == k)).map (·.2)

/-- The per-row validity mask derived from the null bitmap
(`null_array`). -/
def nullArray {α : Type} (col : List (Option α)) : List Bool :=
  col.map Option.isSome

/-- `array.filter(compute.is_valid(array))`: the valid values in row
order. -/
def nonNullValues {α : Type} (col : List (Option α)) : List α :=
  col.filterMap id

/-- `numpy.where(null_array)[0]` starting at row `k`: the indices of the
set mask bits. -/
def whereTrueFrom (k : Nat) : List Bool → List Nat
  | [] => []
  | true :: rest => k :: whereTrueFrom (k + 1) rest
  | false :: rest => whereTrueFrom (k + 1) rest

/-- The valid `(value, row)` pairs of a column in row order, starting at
row `k` — the common shape the three build/probe loops reduce to. -/
def validPairsFrom {α : Type} (k : Nat) : List (Option α) → List (α × Nat)
  | [] => []
  | none :: rest => validPairsFrom (k + 1) rest
  | some a :: rest => (a, k) :: validPairsFrom (k + 1) rest

/-- The integer branch of `preprocess_left` (inner_join_node_single.py
lines 64-66): filter to the non-null values, and insert each under the
value itself at its original row offset (`value_offset_map[i]`). -/
def preprocess_left_int (col : List (Option Int)) : HashTableM Int :=
  ((nonNullValues col).zip (whereTrueFrom 0 (nullArray col))).foldl
    (fun ht vi => ht_insert ht vi.1 vi.2) []

/-- One `for i, val in enumerate(...)` loop step guarded by the null mask:
act on the row's value when its mask bit is set, skip the row otherwise. -/
def foldStepOpt {α β : Type} (g : β → α → Nat → β) (b : β) (iv : Nat × Option α) : β :=
  match iv.2 with
  | some a => g b a iv.1
  | none => b

/-- The fixed-width branch of `preprocess_left` (lines 68-80, floats and
fixed-size binary): walk every row, and for a set mask bit insert the hash
of the row's fixed-width byte slice under the row index.  `col` holds the
byte patterns of valid rows. -/
def preprocess_left_fixed (h : Nat → Nat) (col : List (Option Nat)) : HashTableM Nat :=
  col.enum.foldl (foldStepOpt (fun ht pat i => ht_insert ht (h pat) i)) []

/-- The variable-width branch of `preprocess_left` (lines 82-85, binary and
string): enumerate the array, and for a set mask bit insert the hash of
the scalar under the row index. -/
def preprocess_left_str (h : String → Nat) (col : List (Option String)) : HashTableM Nat :=
  col.enum.foldl (foldStepOpt (fun ht s i => ht_insert ht (h s) i)) []

/-- One probe step (`rows = hash_table.get(...); if rows: ...`): extend the
left indices by the stored rows and the right indices by the probe row
repeated. -/
def probeStep {K : Type} [BEq K] (ht : HashTableM K) (acc : List Nat × List Nat)
    (k : K) (rowIdx : Nat) : List Nat × List Nat :=
  let rows := ht_get ht k
  if rows.isEmpty then acc
  else (acc.1 ++ rows, acc.2 ++ List.replicate rows.length rowIdx)

/-- The integer probe loop of `inner_join_with_preprocessed_left_side`
(lines 126-131). -/
def probe_int (ht : HashTableM Int) (col : List (Option Int)) : List Nat × List Nat :=
  ((nonNullValues col).zip (whereTrueFrom 0 (nullArray col))).foldl
    (fun acc vi => probeStep ht acc vi.1 vi.2) ([], [])

/-- The fixed-width probe loop (lines 133-148). -/
def probe_fixed (h : Nat → Nat) (ht : HashTableM Nat) (col : List (Option Nat)) :
    List Nat × List Nat :=
  col.enum.foldl (foldStepOpt (fun acc pat i => probeStep ht acc (h pat) i)) ([], [])

/-- The variable-width probe loop (lines 150-156). -/
def probe_str (h : String → Nat) (ht : HashTableM Nat) (col : List (Option String)) :
    List Nat × List Nat :=
  col.enum.foldl (foldStepOpt (fun acc s i => probeStep ht acc (h s) i)) ([], [])

/-- The join on an integer key column: build from the left column, probe
with the right column, and pair the collected indices.  `align_tables`
(outside the embedded sources) gathers the rows of the two relations at
exactly these `(left_row, right_row)` index pairs (spec §4.6, "Probe"). -/
def inner_join_single_int (left right : List (Option Int)) : List (Nat × Nat) :=
  let idx := probe_int (preprocess_left_int left) right
  idx.1.zip idx.2

/-- The join on a fixed-width (float or fixed-size binary) key column of
byte patterns. -/
def inner_join_single_fixed (h : Nat → Nat) (left right : List (Option Nat)) :
    List (Nat × Nat) :=
  let idx := probe_fixed h (preprocess_left_fixed h left) right
  idx.1.zip idx.2

/-- The join on a string (or variable binary) key column. -/
def inner_join_single_str (h : String → Nat) (left right : List (Option String)) :
    List (Nat × Nat) :=
  let idx := probe_str h (preprocess_left_str h left) right
  idx.1.zip idx.2

/-- The reference inner join: every `(left_row, right_row)` pair whose key
values are both present and related by `eqk`, right rows in probe order
and left rows in row order — what the spec calls the sort-merge inner join
on the key column, as a pair list. -/
def spec_join_pairs {α : Type} (eqk : α → α → Bool) (L R : List (Option α)) :
    List (Nat × Nat) :=
  R.enum.flatMap (fun jb =>
    match jb.2 with
    | some b =>
        L.enum.filterMap (fun ia =>
          match ia.2 with
          | some a => if eqk a b then some (ia.1, jb.1) else none
          | none => none)
    | none => [])

/-- The biased exponent of an IEEE-754 binary64 bit pattern. -/
def f64Exponent (bits : Nat) : Nat :=
  (bits / 2 ^ 52) % 2 ^ 11

/-- The mantissa of an IEEE-754 binary64 bit pattern. -/
def f64Mantissa (bits : Nat) : Nat :=
  bits % 2 ^ 52

def f64IsNaN (bits : Nat) : Bool :=
  (f64Exponent bits == 2 ^ 11 - 1) && (f64Mantissa bits != 0)

/-- `+0.0` (pattern 0) and `-0.0` (pattern `2^63`) both clear every bit but
the sign. -/
def f64IsZero (bits : Nat) : Bool :=
  bits % 2 ^ 63 == 0

/-- IEEE-754 equality of two binary64 bit patterns: NaN equals nothing,
the two zeros equal each other, otherwise patterns must coincide. -/
def f64Eq (a b : Nat) : Bool :=
  !(f64IsNaN a) && !(f64IsNaN b) && ((a == b) || (f64IsZero a && f64IsZero b))

/-- The binary64 pattern of `-0.0`. -/
def negZeroBits : Nat := 2 ^ 63

/-! ### The async scan's per-blob loop (async_read_node.py)

The reply queue delivers `(blob_name, reference)` items in completion
order followed by a termination marker; the model takes that arrival order
as a list, and the decoder's behaviour on each blob as a `DecodeOutcome`.
Morsels carry an Arrow-level schema tag and a row count — all the loop
inspects. -/

/-- A columnar record batch at the level of detail the scan loop observes:
its Arrow schema (as a tag) and its row count. -/
structure Morsel where
  schemaId : Nat
  rowCount : Nat
deriving DecidableEq, Repr

/-- The statistics counters the scan loop touches (spec §3.4, §4.5). -/
structure ScanStatistics where
  stalls_reading_from_read_buffer : Nat := 0
  failed_reads : Nat := 0
  blobs_read : Nat := 0
  rows_read : Nat := 0
  rows_seen : Nat := 0
  empty_datasets : Nat := 0
  messages : List String := []
deriving DecidableEq, Repr

/-- What decoding one blob does: succeed with a row count and a morsel,
raise pyarrow's `ArrowInvalid` carrying "No match for" (schema drift), or
raise any other exception. -/
inductive DecodeOutcome where
  | ok (num_rows : Nat) (morsel : Morsel)
  | arrowInvalidNoMatch (msg : String)
  | otherError (msg : String)
deriving DecidableEq, Repr

/-- Modelled from the spec: the empty morsel built for an empty blob
listing, `DataFrame(rows=[], schema=orso_schema).arrow()` renamed to
column identities (async_read_node.py lines 113-118). -/
def emptyMorselViaDataFrame (schemaId : Nat) : Morsel :=
  { schemaId := schemaId, rowCount := 0 }

/-- Modelled from the spec: the end-of-processing empty morsel built from
`convert_orso_schema_to_arrow_schema(orso_schema, use_identities=True)`
(async_read_node.py lines 207-210). -/
def emptyMorselViaConvert (schemaId : Nat) : Morsel :=
  { schemaId := schemaId, rowCount := 0 }

/-- The inner `try` of the read loop (async_read_node.py lines 160-176):
pool read plus decode.  An `ArrowInvalid` whose message contains "No match
for" is converted to a DataError explaining schema drift; any other
exception is converted to a generic per-blob DataError.  Either way the
raised value is an `Exception`. -/
def decodeBlob (blob_name : String) (outcome : DecodeOutcome) :
    Except BindErr (Nat × Morsel) :=
  match outcome with
  | .ok n m => .ok (n, m)
  | .arrowInvalidNoMatch _ =>
      .error (.dataError ("Unable to read blob " ++ blob_name
        ++ " - this error is likely caused by a blob having an significantly different schema to previously handled blobs, or the data catalog."))
  | .otherError msg =>
      .error (.dataError ("Unable to read blob " ++ blob_name ++ " - error " ++ msg))

/-- The loop state: the Arrow schema captured from the first morsel, the
loop-local `morsel` variable (None until a decode succeeds), the
statistics, and the morsels yielded so far. -/
structure ScanState where
  arrow_schema : Option Nat := none
  last_morsel : Option Morsel := none
  stats : ScanStatistics := {}
  yielded : List Morsel := []
deriving DecidableEq, Repr

/-- One iteration of the read loop (async_read_node.py lines 154-200): the
outer `try` decodes, normalizes, casts to the captured schema, updates the
statistics and yields; its blanket `except Exception` — which also catches
the DataError the inner handler just raised — appends "failed to read" to
the statistics message log, increments `failed_reads` and continues.
`normalize` stands for `struct_to_jsonb` plus `normalize_morsel`
(read_node.py, outside the embedded sources). -/
def process_item (normalize : Morsel → Morsel) (st : ScanState)
    (item : String × DecodeOutcome) : ScanState :=
  match decodeBlob item.1 item.2 with
  | .ok (num_rows, m) =>
      let stats := { st.stats with rows_seen := st.stats.rows_seen + num_rows }
      let m := normalize m
      let (m, arrow_schema) :=
        match st.arrow_schema with
        | some s => ({ m with schemaId := s }, some s)
        | none => (m, some m.schemaId)
      let stats := { stats with
        blobs_read := stats.blobs_read + 1,
        rows_read := stats.rows_read + m.rowCount }
      { arrow_schema := arrow_schema, last_morsel := some m, stats := stats,
        yielded := st.yielded ++ [m] }
  | .error _ =>
      { st with stats := { st.stats with
          messages := st.stats.messages ++ ["failed to read " ++ item.1],
          failed_reads := st.stats.failed_reads + 1 } }

/-- `AsyncReaderNode.execute` after blob listing (async_read_node.py lines
110-210): an empty listing yields one empty morsel up front (and the
generator then runs on); every queue item is processed in arrival order;
after the termination marker, if the loop-local `morsel` variable was
never assigned, one further empty morsel is yielded and `empty_datasets`
is incremented.  The returned pair is the yielded morsel stream and the
final statistics. -/
def async_execute (normalize : Morsel → Morsel) (schemaId : Nat)
    (blob_names : List String) (items : List (String × DecodeOutcome)) :
    List Morsel × ScanStatistics :=
  let initial : List Morsel :=
    if blob_names.length = 0 then [emptyMorselViaDataFrame schemaId] else []
  let st : ScanState := items.foldl (process_item normalize) {}
  match st.last_morsel with
  | none =>
      (initial ++ st.yielded ++ [emptyMorselViaConvert schemaId],
       { st.stats with empty_datasets := st.stats.empty_datasets + 1 })
  | some _ => (initial ++ st.yielded, st.stats)

/-! ### Proof-layer forms of the join loops

The three build/probe loop pairs differ only in how a row's key is drawn
from its value; each is proved equal to the canonical fold over the
column's valid `(value, row)` pairs. -/

/-- The canonical build: insert `(key a, row)` for every valid pair. -/
def genericBuild {α K : Type} (key : α → K) (col : List (Option α)) : HashTableM K :=
  (validPairsFrom 0 col).foldl (fun ht ai => ht_insert ht (key ai.1) ai.2) []

/-- The canonical probe: one `probeStep` per valid pair. -/
def genericProbe {α K : Type} [BEq K] (key : α → K) (ht : HashTableM K)
    (col : List (Option α)) : List Nat × List Nat :=
  (validPairsFrom 0 col).foldl (fun acc ai => probeStep ht acc (key ai.1) ai.2) ([], [])

/-! ### Fixture nodes and inputs used by the closed theorems below. -/

/-- A bound identifier `x` over a plain disk-backed connector (so the
LIKE-family rewrites are not suppressed by pushdown). -/
def identX : Node :=
  .mk .IDENTIFIER none none none [] []
    { source_column := some "x", current_name := some "x", source_connector := ["Disk"] }

/-- The literal pattern `'abc'`. -/
def litAbc : Node :=
  .mk .LITERAL none none none [] [] { value := some (.strv "abc"), typ := .varchar }

/-- `x LIKE 'abc'` — a rewritable leaf (no wildcards, so it becomes
`x = 'abc'` at top level). -/
def likeLeaf : Node :=
  .mk .COMPARISON_OPERATOR (some identX) (some litAbc) none [] []
    { value := some (.strv "Like") }

/-- `x = 'abc'` — an unrewritable second conjunct. -/
def eqLeaf : Node :=
  .mk .COMPARISON_OPERATOR (some identX) (some litAbc) none [] []
    { value := some (.strv "Eq") }

/-- `(x LIKE 'abc') AND (x = 'abc')`. -/
def andPredicate : Node :=
  .mk .AND (some likeLeaf) (some eqLeaf) none [] [] {}

/-- The literal pattern `'%a%b%'`: a `%` at both ends and one inside. -/
def litBothEnds : Node :=
  .mk .LITERAL none none none [] [] { value := some (.strv "%a%b%"), typ := .varchar }

/-- `x LIKE '%a%b%'`. -/
def likeBothEnds : Node :=
  .mk .COMPARISON_OPERATOR (some identX) (some litBothEnds) none [] []
    { value := some (.strv "Like") }

/-- The literal pattern `'abc%'`. -/
def litAbcPct : Node :=
  .mk .LITERAL none none none [] [] { value := some (.strv "abc%"), typ := .varchar }

/-- `x LIKE 'abc%'`. -/
def likeTrailing : Node :=
  .mk .COMPARISON_OPERATOR (some identX) (some litAbcPct) none [] []
    { value := some (.strv "Like") }

/-- An everywhere-positive stand-in hash, showing that the fallback gap of
`hash_tree` is not an artifact of a hash that can return 0. -/
def chPos : String → Nat := fun s => s.length + 1

/-- A SUBQUERY leaf with no identity, no schema column, no value and no
children: every fallback of `hash_tree`'s inner worker passes it by. -/
def bareSubquery : Node := .mk .SUBQUERY none none none [] [] {}

/-- A concrete column and schemas for the resolution witnesses. -/
def colX : SchemaColumn :=
  { name := "x", aliases := ["ex"], identity := "i1", typ := .integer }

def colY : SchemaColumn :=
  { name := "y", aliases := [], identity := "i2", typ := .varchar }

def usersSchema : RelationSchema := { name := "users", columns := [colX, colY] }

def ordersSchema : RelationSchema :=
  { name := "orders", columns := [{ name := "x", identity := "i3" }] }

def derivedSchema : RelationSchema := { name := "$derived", columns := [] }

def ctxTwoMatches : BindingContext :=
  { schemas := [("users", usersSchema), ("orders", ordersSchema), ("$derived", derivedSchema)] }

def ctxUsers : BindingContext :=
  { schemas := [("users", usersSchema), ("$derived", derivedSchema)] }

/-- An identifier `x` with no qualifying source. -/
def identBareX : Node :=
  .mk .IDENTIFIER none none none [] []
    { source_column := some "x", current_name := some "x" }

/-- `users.x AS x2`: a qualified identifier carrying a fresh alias. -/
def identAliasedX : Node :=
  .mk .IDENTIFIER none none none [] []
    { source_column := some "x", current_name := some "x", source := some "users",
      nalias := some "x2" }

/-- `colX` after `locate_identifier` appended the alias `x2`. -/
def colXAliased : SchemaColumn := { colX with aliases := colX.aliases ++ ["x2"] }

/-!  ## The claims  -/

/-- **C2.**  In the async scan, a blob whose decode raises the
`ArrowInvalid` "No match for" schema error does *not* fail the statement:
the DataError built by the inner handler is itself caught by the blanket
per-blob `except Exception`, which logs "failed to read", increments
`failed_reads` and continues — exactly the treatment of every other
per-blob error (and, the loop having produced no morsel, the empty
fallback morsel follows).  This closed evaluation exhibits the behaviour
at one such blob. -/
theorem async_scan_no_match_error_swallowed :
    async_execute id 7 ["data.parquet"]
        [("data.parquet", .arrowInvalidNoMatch "No match for FieldRef.Name(user_name)")]
      = ([emptyMorselViaConvert 7],
         { failed_reads := 1, empty_datasets := 1,
           messages := ["failed to read data.parquet"] }) := by
  rfl

/-- **C3.**  A scan whose blob listing is empty emits *two* empty morsels,
not one: the early empty morsel is yielded without returning, the read
loop then processes zero items, and the end-of-processing fallback — whose
guard watches the loop-local `morsel` variable, still `None` — emits a
second empty morsel. -/
theorem async_scan_empty_listing_two_morsels :
    async_execute id 5 [] []
      = ([emptyMorselViaDataFrame 5, emptyMorselViaConvert 5],
         { empty_datasets := 1 }) := by
  rfl

/-- **C9 (counterexample).**  `merge_schemas` does *not* raise on every
non-schema value: a non-schema value under a key seen for the first time
is deep-copied into the result without any check — the
`isinstance(value, RelationSchema)` test runs only on the repeated-key
path. -/
theorem merge_schemas_fresh_nonschema_not_rejected :
    merge_schemas [[("a", .other 7)]] = .ok [("a", .other 7)] := by
  rfl

/-- **C9 (amended).**  `merge_schemas` builds a fresh mapping by folding
`mergeEntry` over every entry of every input: a key seen for the first
time is deep-copied in whatever its value is; a repeated key whose new
value is a schema is unioned with the stored schema by column identity
(a column of the union is a column of the left schema, or a column of the
right schema whose identity the left does not carry); and a repeated key
whose new value is not a schema raises InvalidInternalStateError.  The
inputs, being pure values here, are left unmodified. -/
theorem merge_schemas_merging_rules :
    (∀ (merged : SchemaDict) (key : String) (v : MVal),
        dictContains merged key = false →
        mergeEntry merged (key, v) = .ok (merged ++ [(key, v)]))
    ∧ (∀ (merged : SchemaDict) (key : String) (tag : Nat),
        dictContains merged key = true →
        mergeEntry merged (key, .other tag) = .error .invalidInternalState)
    ∧ (∀ (merged : SchemaDict) (key : String) (old s : RelationSchema),
        dictContains merged key = true →
        dictGet merged key = some (.schema old) →
        mergeEntry merged (key, .schema s)
          = .ok (dictSet merged key (.schema (old.union s))))
    ∧ (∀ (s t : RelationSchema) (c : SchemaColumn),
        c ∈ (s.union t).columns ↔
          c ∈ s.columns ∨ (c ∈ t.columns ∧ ∀ c0 ∈ s.columns, c0.identity ≠ c.identity)) := by
  refine ⟨?_, ?_, ?_, ?_⟩
  · intro merged key v h
    simp [mergeEntry, h]
  · intro merged key tag h
    simp [mergeEntry, h]
  · intro merged key old s h hget
    simp [mergeEntry, h, hget]
  · intro s t c
    simp only [RelationSchema.union, List.mem_append, List.mem_filter, List.all_eq_true,
      decide_eq_true_eq]

/-- Witness for C9's amended theorem at concrete inputs: a fresh key —
schema or not — is inserted unchecked, and a repeated non-schema value is
the case that errors. -/
theorem merge_schemas_merging_rules_witness :
    mergeEntry [] ("a", .other 7) = .ok [("a", .other 7)]
    ∧ mergeEntry [("a", .other 7)] ("a", .other 9) = .error .invalidInternalState := by
  exact ⟨merge_schemas_merging_rules.1 [] "a" (.other 7) rfl,
         merge_schemas_merging_rules.2.1 [("a", .other 7)] "a" 9 rfl⟩

/-- Does a schema of the environment match the identifier? -/
def schemaMatches (value : String) (kv : String × RelationSchema) : Bool :=
  (kv.2.find_column value).isSome

theorem except_bind_ok {ε α β : Type} (a : α) (f : α → Except ε β) :
    (Except.ok a >>= f) = f a := rfl

theorem except_bind_err {ε α β : Type} (e : ε) (f : α → Except ε β) :
    ((Except.error e : Except ε α) >>= f) = Except.error e := rfl

theorem locate_search_after_found (value : String) (c0 : SchemaColumn)
    (r0 : RelationSchema) (rest : List (String × RelationSchema)) :
    locate_search value (some c0) (some r0) rest
      = if 0 < rest.countP (schemaMatches value)
        then .error (.ambiguousIdentifier value)
        else .ok (some c0, some r0) := by
  induction rest with
  | nil => simp [locate_search]
  | cons kv t ih =>
      obtain ⟨k, schema⟩ := kv
      cases hf : schema.find_column value with
      | some found =>
          have hsm : schemaMatches value (k, schema) = true := by
            simp [schemaMatches, hf]
          rw [List.countP_cons, hsm]
          simp [locate_search, hf]
      | none =>
          have hsm : schemaMatches value (k, schema) = false := by
            simp [schemaMatches, hf]
          rw [List.countP_cons, hsm]
          simp [locate_search, hf, ih]

theorem locate_search_none (value : String)
    (schemas : List (String × RelationSchema)) :
    schemas.countP (schemaMatches value) = 0 →
    locate_identifier_in_loaded_schemas value schemas = .ok (none, none) := by
  induction schemas with
  | nil => intro _; rfl
  | cons kv t ih =>
      obtain ⟨k, schema⟩ := kv
      intro h
      cases hf : schema.find_column value with
      | some found =>
          rw [List.countP_cons_of_pos _ _ (by simp [schemaMatches, hf])] at h
          omega
      | none =>
          rw [List.countP_cons_of_neg _ _ (by simp [schemaMatches, hf])] at h
          simpa [locate_identifier_in_loaded_schemas, locate_search, hf] using ih h

theorem locate_search_ambiguous (value : String)
    (schemas : List (String × RelationSchema)) :
    2 ≤ schemas.countP (schemaMatches value) →
    locate_identifier_in_loaded_schemas value schemas
      = .error (.ambiguousIdentifier value) := by
  induction schemas with
  | nil => intro h; simp at h
  | cons kv t ih =>
      obtain ⟨k, schema⟩ := kv
      intro h
      cases hf : schema.find_column value with
      | some found =>
          rw [List.countP_cons_of_pos _ _ (by simp [schemaMatches, hf])] at h
          have ht : 0 < t.countP (schemaMatches value) := by omega
          simp [locate_identifier_in_loaded_schemas, locate_search, hf,
            locate_search_after_found, ht]
      | none =>
          rw [List.countP_cons_of_neg _ _ (by simp [schemaMatches, hf])] at h
          simpa [locate_identifier_in_loaded_schemas, locate_search, hf] using ih h

theorem locate_search_unique (value : String)
    (schemas : List (String × RelationSchema)) (k : String) (r : RelationSchema) :
    schemas.countP (schemaMatches value) = 1 →
    (k, r) ∈ schemas → (r.find_column value).isSome →
    locate_identifier_in_loaded_schemas value schemas
      = .ok (r.find_column value, some r) := by
  induction schemas with
  | nil => intro _ hmem; simp at hmem
  | cons kv t ih =>
      obtain ⟨k0, schema⟩ := kv
      intro h hmem hsome
      cases hf : schema.find_column value with
      | some found =>
          rw [List.countP_cons_of_pos _ _ (by simp [schemaMatches, hf])] at h
          have hrs : r = schema := by
            rcases List.mem_cons.mp hmem with hhead | htail
            · exact congrArg Prod.snd hhead
            · exfalso
              have hpos : 0 < t.countP (schemaMatches value) :=
                List.countP_pos_iff.mpr ⟨(k, r), htail, by simpa [schemaMatches] using hsome⟩
              omega
          subst hrs
          have ht : t.countP (schemaMatches value) = 0 := by omega
          simp [locate_identifier_in_loaded_schemas, locate_search, hf,
            locate_search_after_found, ht]
      | none =>
          rw [List.countP_cons_of_neg _ _ (by simp [schemaMatches, hf])] at h
          have htail : (k, r) ∈ t := by
            rcases List.mem_cons.mp hmem with hhead | htail
            · exfalso
              have hrs : r = schema := congrArg Prod.snd hhead
              subst hrs
              simp [hf] at hsome
            · exact htail
          simpa [locate_identifier_in_loaded_schemas, locate_search, hf]
            using ih h htail hsome

/-- **C8.**  Identifier resolution: a column is found exactly when its name
or one of its aliases equals the looked-up identifier; the scan over the
loaded schemas returns nothing when no schema matches, the unique match
when exactly one schema matches, and raises AmbiguousIdentifierError as
soon as a second candidate schema matches; `locate_identifier` searches
all schemas when the node carries no source, and the schemas named by the
source or starting with `"$shared"` when it does, surfacing the same
AmbiguousIdentifierError. -/
theorem locate_identifier_resolution (value : String)
    (schemas : List (String × RelationSchema)) (node : Node)
    (context : BindingContext) :
    (∀ s : RelationSchema,
        (s.find_column value).isSome ↔ ∃ c ∈ s.columns, value = c.name ∨ value ∈ c.aliases)
    ∧ (schemas.countP (schemaMatches value) = 0 →
        locate_identifier_in_loaded_schemas value schemas = .ok (none, none))
    ∧ (∀ k r, schemas.countP (schemaMatches value) = 1 →
        (k, r) ∈ schemas → (r.find_column value).isSome →
        locate_identifier_in_loaded_schemas value schemas = .ok (r.find_column value, some r))
    ∧ (2 ≤ schemas.countP (schemaMatches value) →
        locate_identifier_in_loaded_schemas value schemas
          = .error (.ambiguousIdentifier value))
    ∧ (truthyStr node.source = false →
        2 ≤ context.schemas.countP (schemaMatches (strOfOptStr node.source_column)) →
        locate_identifier node context
          = .error (.ambiguousIdentifier (strOfOptStr node.source_column)))
    ∧ (∀ src, node.source = some src → src ≠ "" →
        2 ≤ (context.schemas.filter
              (fun kv => strStartsWith kv.1 "$shared" || some kv.1 == node.source)).countP
              (schemaMatches (strOfOptStr node.source_column)) →
        locate_identifier node context
          = .error (.ambiguousIdentifier (strOfOptStr node.source_column))) := by
  refine ⟨?_, locate_search_none value schemas,
          fun k r => locate_search_unique value schemas k r,
          locate_search_ambiguous value schemas, ?_, ?_⟩
  · intro s
    simp [RelationSchema.find_column, List.find?_isSome, SchemaColumn.all_names]
  · intro hsrc hcount
    have herr := locate_search_ambiguous (strOfOptStr node.source_column)
      context.schemas hcount
    have hne : context.schemas.isEmpty = false := by
      cases hcs : context.schemas with
      | nil => rw [hcs] at hcount; simp at hcount
      | cons a t => simp
    simp only [locate_identifier, hsrc, Bool.false_eq_true, if_false, hne, herr]
    rfl
  · intro src hsrc hne hcount
    have htr : truthyStr node.source = true := by simp [truthyStr, hsrc, hne]
    have herr := locate_search_ambiguous (strOfOptStr node.source_column) _ hcount
    have hnemp :
        (context.schemas.filter
          (fun kv => strStartsWith kv.1 "$shared" || some kv.1 == node.source)).isEmpty
          = false := by
      cases hcs : (context.schemas.filter
          (fun kv => strStartsWith kv.1 "$shared" || some kv.1 == node.source)) with
      | nil => rw [hcs] at hcount; simp at hcount
      | cons a t => simp
    simp only [locate_identifier, htr, if_true, hnemp, herr]
    rfl

/-- Witness for C8 at a concrete environment: the unqualified identifier
`x` matches a column in both `users` and `orders`, and resolution raises
AmbiguousIdentifierError. -/
theorem locate_identifier_resolution_witness :
    locate_identifier identBareX ctxTwoMatches = .error (.ambiguousIdentifier "x") := by
  exact (locate_identifier_resolution "x" [] identBareX ctxTwoMatches).2.2.2.2.1
    (by rfl) (by rfl)

/-- **C10.**  When a qualified identifier resolves to a unique column and
carries an alias the column does not yet know, `locate_identifier` appends
the alias to that column's alias list in place — the returned environment
is the old one with exactly the occurrences of that column (located by its
globally unique identity, in whichever schema holds them, `$derived` or
not) rebuilt with the extended alias list — while every other field of the
column, every column of a different identity, and the key structure of the
environment are unchanged. -/
theorem locate_identifier_appends_alias (node : Node) (context : BindingContext)
    (column : SchemaColumn) (rel : RelationSchema) (a : String)
    (hsrc : truthyStr node.source = true)
    (hfound : locate_identifier_in_loaded_schemas (strOfOptStr node.source_column)
        (context.schemas.filter
          (fun kv => strStartsWith kv.1 "$shared" || some kv.1 == node.source))
        = .ok (some column, some rel))
    (hat : startsWithAt node.current_name = false)
    (halias : node.nalias = some a)
    (hane : a ≠ "")
    (hnotin : a ∉ column.all_names)
    (horigin : column.origin = []) :
    locate_identifier node context
      = .ok (node.withSchemaColumn (some { column with aliases := column.aliases ++ [a] }),
             { context with
                schemas := mutateColumnAliases context.schemas column.identity
                  { column with aliases := column.aliases ++ [a] } })
    ∧ (mutateColumnAliases context.schemas column.identity
        { column with aliases := column.aliases ++ [a] }).map Prod.fst
        = context.schemas.map Prod.fst
    ∧ (∀ k sch c, (k, sch) ∈ context.schemas → c ∈ sch.columns →
        c.identity ≠ column.identity →
        ∃ sch', (k, sch') ∈ mutateColumnAliases context.schemas column.identity
                  { column with aliases := column.aliases ++ [a] }
          ∧ sch'.name = sch.name ∧ c ∈ sch'.columns)
    ∧ ({ column with aliases := column.aliases ++ [a] }.name = column.name
        ∧ { column with aliases := column.aliases ++ [a] }.identity = column.identity
        ∧ { column with aliases := column.aliases ++ [a] }.typ = column.typ
        ∧ { column with aliases := column.aliases ++ [a] }.kind = column.kind
        ∧ { column with aliases := column.aliases ++ [a] }.value = column.value
        ∧ { column with aliases := column.aliases ++ [a] }.origin = column.origin
        ∧ { column with aliases := column.aliases ++ [a] }.aliases
            = column.aliases ++ [a]) := by
  have hnemp : (context.schemas.filter
      (fun kv => strStartsWith kv.1 "$shared" || some kv.1 == node.source)).isEmpty
      = false := by
    cases hcs : (context.schemas.filter
        (fun kv => strStartsWith kv.1 "$shared" || some kv.1 == node.source)) with
    | nil =>
        rw [hcs] at hfound
        simp [locate_identifier_in_loaded_schemas, locate_search] at hfound
    | cons x t => simp
  refine ⟨?_, ?_, ?_, by simp⟩
  · have htr : truthyStr (some a) = true := by
      simp [truthyStr, hane]
    simp only [locate_identifier, hsrc, if_true, hnemp, hfound, except_bind_ok,
      except_bind_err]
    simp [hat, hsrc, halias, htr, hnotin, horigin]
    rfl
  · simp [mutateColumnAliases]
  · intro k sch c hmem hcol hne
    refine ⟨{ sch with columns := sch.columns.map (fun c0 => if c0.identity = column.identity then { column with aliases := column.aliases ++ [a] } else c0) }, ?_, rfl, ?_⟩
    · exact List.mem_map.mpr ⟨(k, sch), hmem, rfl⟩
    · refine List.mem_map.mpr ⟨c, hcol, ?_⟩
      simp [hne]

/-- Witness for C10: resolving `users.x AS x2` against a two-relation
environment appends `x2` to the aliases of the `users.x` column inside the
environment (a schema other than `$derived`), and binds the node to the
extended column. -/
theorem locate_identifier_appends_alias_witness :
    locate_identifier identAliasedX ctxUsers
      = .ok (identAliasedX.withSchemaColumn (some colXAliased),
             { ctxUsers with
                schemas := mutateColumnAliases ctxUsers.schemas "i1" colXAliased }) := by
  have h := (locate_identifier_appends_alias identAliasedX ctxUsers colX usersSchema "x2"
      (by rfl) (by rfl) (by rfl) (by rfl) (by decide) (by decide) (by rfl)).1
  exact h

/-- **C4.**  The binder is idempotent on bound nodes: whenever a node's
`schema_column` is set, `inner_binder` returns the node and the context
unchanged; consequently, rebinding the result of any successful bind whose
root came out bound is the same as binding once (binding twice equals
binding once). -/
theorem inner_binder_already_bound (ch : String → Nat) (node : Node)
    (context : BindingContext) (h : node.schema_column.isSome = true) :
    inner_binder ch node context = .ok (node, context)
    ∧ ((inner_binder ch node context).bind (fun p => inner_binder ch p.1 p.2)
        = inner_binder ch node context) := by
  obtain ⟨t, l, r, c, ps, vs, i⟩ := node
  simp only [Node.schema_column, Node.info] at h
  have hstep : inner_binder ch (.mk t l r c ps vs i) context
      = .ok (.mk t l r c ps vs i, context) := by
    rw [inner_binder]
    simp [h]
  refine ⟨hstep, ?_⟩
  rw [hstep]
  simpa [Except.bind] using hstep

/-- Witness for C4: a LITERAL node already carrying a schema column passes
through `inner_binder` untouched, twice. -/
theorem inner_binder_already_bound_witness :
    inner_binder chPos (mkLiteralNode colX) ctxUsers = .ok (mkLiteralNode colX, ctxUsers) := by
  exact (inner_binder_already_bound chPos (mkLiteralNode colX) ctxUsers (by rfl)).1

/-- **C5 (amended).**  For every deterministic hash `ch` and every node,
`hash_tree` equals the hex rendering of `hash(format(node))` XORed with
the inner hash, and the inner hash is the XOR-fold of the children's inner
hashes unless that fold is 0, in which case the fallbacks apply in order —
node identity, then schema-column identity, then stringified value, then
`source + "*"` for WILDCARD — and when none of the four applies the inner
hash remains 0 (so a zero does reach the outer XOR).  Being a pure
function of the node and `ch`, the identity is the same across runs for
equal inputs. -/
theorem hash_tree_formula (ch : String → Nat) (node : Node) :
    hash_tree ch node = toHexStr (ch (format_expression node) ^^^ innerHash ch node)
    ∧ innerHash ch node
        = (if childFold ch node = 0 then specInnerFallback ch node else childFold ch node) := by
  refine ⟨rfl, ?_⟩
  obtain ⟨t, l, r, c, ps, vs, i⟩ := node
  rw [innerHash]
  simp only [childFold, specInnerFallback, Node.left, Node.right, Node.centre,
    Node.parameters, Node.identity, Node.schema_column, Node.value, Node.node_type,
    Node.source, Node.info, Nat.zero_xor]
  by_cases hF : (innerHashOpt ch l ^^^ innerHashOpt ch r ^^^ innerHashOpt ch c
      ^^^ innerHashList ch ps) = 0
  · cases hid : i.identity with
    | some ident => simp [hF, hid]
    | none =>
        cases hsc : i.schema_column with
        | some sc => simp [hF, hid, hsc]
        | none =>
            cases hv : i.value with
            | some v => simp [hF, hid, hsc, hv]
            | none =>
                by_cases hw : t = NodeType.WILDCARD <;> simp [hF, hid, hsc, hv, hw]
  · simp [hF]

/-- **C5 (counterexample).**  The fallbacks do not always fire: a SUBQUERY
leaf with no identity, no schema column and no value has a zero child fold
and an inner hash that is still 0 — none of the four fallbacks applies —
even under a hash (`chPos`) that never returns 0, so the final identity
degenerates to the bare outer hash instead of being protected by the
fallback chain. -/
theorem hash_tree_fallback_gap :
    childFold chPos bareSubquery = 0
    ∧ innerHash chPos bareSubquery = 0
    ∧ chPos (format_expression bareSubquery) ≠ 0
    ∧ hash_tree chPos bareSubquery = toHexStr (chPos (format_expression bareSubquery)) := by
  have hinner : innerHash chPos bareSubquery = 0 := by
    rw [bareSubquery, innerHash]
    simp [innerHashOpt, innerHashList]
  refine ⟨?_, hinner, ?_, ?_⟩
  · simp [childFold, bareSubquery, Node.left, Node.right, Node.centre, Node.parameters,
      innerHashOpt, innerHashList]
  · simp [chPos]
  · rw [hash_tree, hinner, Nat.xor_zero]

/-- **C6.**  `_rewrite_predicate` never reaches its AND/OR/XOR recursion:
the guard above it already returns every node whose type is not
BINARY_OPERATOR or COMPARISON_OPERATOR, and AND is neither.  Concretely,
`(x LIKE 'abc') AND (x = 'abc')` comes back syntactically unchanged — its
rewritable left leaf still reads `Like` — although the very same leaf, fed
to `_rewrite_predicate` at top level, is rewritten to `Eq`. -/
theorem rewrite_predicate_skips_logical_roots :
    _rewrite_predicate andPredicate = andPredicate
    ∧ ((_rewrite_predicate andPredicate).left.map Node.value)
        = some (some (.strv "Like"))
    ∧ (_rewrite_predicate likeLeaf).value = some (.strv "Eq") := by
  have hAnd : _rewrite_predicate andPredicate = andPredicate := by
    rw [andPredicate]
    rw [_rewrite_predicate]
    simp
  refine ⟨hAnd, ?_, ?_⟩
  · rw [hAnd]
    rfl
  · rw [likeLeaf]
    rw [_rewrite_predicate]
    simp [dispatchBlocks, valueIsStr, patternHasDoubled, rightPattern, Node.right,
      Node.info, litAbc, hasDoubledPercent, noWildcardPattern, Node.value,
      afterLikeBlocks, rightIsLiteral, rightLen, Node.node_type, Node.left, identX,
      determine_type, Node.withValue, Node.withInfo, Node.typ, connectorDisjoint,
      Node.source_connector]

/-- **C7 (counterexample).**  A pattern with a `%` at both ends is *not*
always rewritten to SEARCH: the dispatcher also requires the pattern to
contain exactly two `%`, so `x LIKE '%a%b%'` — whose left operand's
connector set is disjoint from {Sql, Cql} and whose right operand is a
LITERAL — comes back unchanged, still a `Like`. -/
theorem rewrite_like_internal_wildcard_unchanged :
    _rewrite_predicate likeBothEnds = likeBothEnds
    ∧ (_rewrite_predicate likeBothEnds).value = some (.strv "Like") := by
  have h : _rewrite_predicate likeBothEnds = likeBothEnds := by
    rw [likeBothEnds]
    rw [_rewrite_predicate]
    simp [dispatchBlocks, valueIsStr, patternHasDoubled, rightPattern, Node.right,
      Node.info, litBothEnds, hasDoubledPercent, noWildcardPattern, Node.value,
      afterLikeBlocks, rightIsLiteral, rightLen, Node.node_type, Node.left, identX,
      determine_type, connectorDisjoint, Node.source_connector, lastIsPct,
      firstIsPct, pctCount, List.count_cons]
  exact ⟨h, by rw [h]; rfl⟩

/-- **C7 (amended).**  For every Like/ILike comparison whose left operand
has a non-empty `source_connector` disjoint from {Sql, Cql} and whose
right operand is a LITERAL string pattern with no doubled `%`: a pattern
with exactly one `%`, trailing, is rewritten to the FUNCTION
`STARTS_WITH(left, pattern-without-'%', ignore_case)`; exactly one `%`,
leading (and not also trailing, i.e. the pattern is not `"%"` itself,
which the trailing branch claims first), to `ENDS_WITH`; a `%` at each end
and exactly two in total, to `SEARCH(left, inner-text, ignore_case)`;
`ignore_case` is true exactly when the operator was ILike. -/
theorem rewrite_like_family (p lp rp : Node) (s op : String)
    (hnt : p.node_type = .COMPARISON_OPERATOR)
    (hop : op = "Like" ∨ op = "ILike")
    (hv : p.value = some (.strv op))
    (hl : p.left = some lp)
    (hconn : lp.source_connector ≠ [])
    (hdisj : ∀ cs ∈ lp.source_connector, cs ≠ "Sql" ∧ cs ≠ "Cql")
    (hr : p.right = some rp)
    (hrl : rp.node_type = .LITERAL)
    (hrv : rp.value = some (.strv s))
    (hnd : hasDoubledPercent s.data = false) :
    (s.data.getLast? = some '%' → s.data.count '%' = 1 →
      (_rewrite_predicate p).node_type = .FUNCTION
      ∧ (_rewrite_predicate p).value = some (.strv "STARTS_WITH")
      ∧ (_rewrite_predicate p).parameters
          = [lp, rp.withValue (some (.strv (s.dropRight 1))), boolLiteral (op == "ILike")])
    ∧ (s.data.head? = some '%' → s.data.getLast? ≠ some '%' → s.data.count '%' = 1 →
      (_rewrite_predicate p).node_type = .FUNCTION
      ∧ (_rewrite_predicate p).value = some (.strv "ENDS_WITH")
      ∧ (_rewrite_predicate p).parameters
          = [lp, rp.withValue (some (.strv (s.drop 1))), boolLiteral (op == "ILike")])
    ∧ (s.data.head? = some '%' → s.data.getLast? = some '%' → s.data.count '%' = 2 →
      (_rewrite_predicate p).node_type = .FUNCTION
      ∧ (_rewrite_predicate p).value = some (.strv "SEARCH")
      ∧ (_rewrite_predicate p).parameters
          = [lp, rp.withValue (some (.strv ((s.drop 1).dropRight 1))),
             boolLiteral (op == "ILike")]) := by
  obtain ⟨t, l, r, c, ps, vs, i⟩ := p
  obtain ⟨rt, rl, rr, rc, rps, rvs, ri⟩ := rp
  simp only [Node.node_type] at hnt hrl
  simp only [Node.value, Node.info] at hv hrv
  simp only [Node.left] at hl
  simp only [Node.right] at hr
  subst hnt hl hr hrl
  have hopB : (op == "Like" || op == "ILike") = true := by
    rcases hop with h | h <;> simp [h]
  have hnl : (op == "NotLike") = false := by
    rcases hop with h | h <;> simp [h]
  have hnil : (op == "NotILike") = false := by
    rcases hop with h | h <;> simp [h]
  have hconnB : connectorDisjoint (Node.mk .COMPARISON_OPERATOR (some lp)
      (some (Node.mk .LITERAL rl rr rc rps rvs ri)) c ps vs i) = true := by
    simp only [connectorDisjoint, Node.left]
    rw [Bool.and_eq_true, List.all_eq_true]
    constructor
    · simpa using hconn
    · intro cs hcs
      rcases hdisj cs hcs with ⟨h1, h2⟩
      simp [h1, h2]
  have hrlB : rightIsLiteral (Node.mk .COMPARISON_OPERATOR (some lp)
      (some (Node.mk .LITERAL rl rr rc rps rvs ri)) c ps vs i) = true := by
    simp [rightIsLiteral, Node.right, Node.node_type]
  have hpat : rightPattern (Node.mk .COMPARISON_OPERATOR (some lp)
      (some (Node.mk .LITERAL rl rr rc rps rvs ri)) c ps vs i) = some s := by
    simp [rightPattern, Node.right, Node.value, Node.info, hrv]
  refine ⟨?_, ?_, ?_⟩
  · intro hlast hcount
    have hmem : '%' ∈ s.data := List.count_pos_iff.mp (by omega)
    rw [_rewrite_predicate]
    simp only [List.mem_cons, List.not_mem_nil]
    simp [dispatchBlocks, valueIsStr, patternHasDoubled, hpat, hnd,
      noWildcardPattern, hmem, hconnB, hrlB, lastIsPct, firstIsPct, pctCount,
      hlast, hcount, rewrite_to_starts_with, Node.right, Node.value, Node.info, hv,
      hrv, Node.withValue, Node.withInfo, Node.withNodeType, Node.withRight,
      Node.withParameters, Node.node_type, Node.parameters, Node.left,
      hopB, hnl, hnil]
  · intro hhead hlast hcount
    have hmem : '%' ∈ s.data := List.count_pos_iff.mp (by omega)
    rw [_rewrite_predicate]
    simp only [List.mem_cons, List.not_mem_nil]
    simp [dispatchBlocks, valueIsStr, patternHasDoubled, hpat, hnd,
      noWildcardPattern, hmem, hconnB, hrlB, lastIsPct, firstIsPct, pctCount,
      hhead, hlast, hcount, rewrite_to_ends_with, Node.right, Node.value, Node.info, hv,
      hrv, Node.withValue, Node.withInfo, Node.withNodeType, Node.withRight,
      Node.withParameters, Node.node_type, Node.parameters, Node.left,
      hopB, hnl, hnil]
  · intro hhead hlast hcount
    have hmem : '%' ∈ s.data := List.count_pos_iff.mp (by omega)
    rw [_rewrite_predicate]
    simp only [List.mem_cons, List.not_mem_nil]
    simp [dispatchBlocks, valueIsStr, patternHasDoubled, hpat, hnd,
      noWildcardPattern, hmem, hconnB, hrlB, lastIsPct, firstIsPct, pctCount,
      hhead, hlast, hcount, rewrite_to_search, Node.right, Node.value, Node.info, hv,
      hrv, Node.withValue, Node.withInfo, Node.withNodeType, Node.withRight,
      Node.withParameters, Node.node_type, Node.parameters, Node.left,
      hopB, hnl, hnil]

/-- Witness for C7's amended theorem: `x LIKE 'abc%'` over a disk-backed
connector becomes `STARTS_WITH(x, 'abc', false)`. -/
theorem rewrite_like_family_witness :
    (_rewrite_predicate likeTrailing).node_type = .FUNCTION
    ∧ (_rewrite_predicate likeTrailing).value = some (.strv "STARTS_WITH")
    ∧ (_rewrite_predicate likeTrailing).parameters
        = [identX, litAbcPct.withValue (some (.strv "abc")), boolLiteral false] := by
  have h := (rewrite_like_family likeTrailing identX litAbcPct "abc%" "Like"
      (by rfl) (Or.inl rfl) (by rfl) (by rfl) (by decide) (by decide)
      (by rfl) (by rfl) (by rfl) (by decide)).1 (by decide) (by decide)
  exact h

theorem zip_valid {α : Type} (col : List (Option α)) (k : Nat) :
    (nonNullValues col).zip (whereTrueFrom k (nullArray col)) = validPairsFrom k col := by
  induction col generalizing k with
  | nil => rfl
  | cons o t ih =>
      cases o with
      | none => simpa [nonNullValues, nullArray, whereTrueFrom, validPairsFrom] using ih (k + 1)
      | some a => simpa [nonNullValues, nullArray, whereTrueFrom, validPairsFrom] using ih (k + 1)

theorem enumFrom_fold_valid {α β : Type} (g : β → α → Nat → β) (col : List (Option α))
    (k : Nat) (b : β) :
    (List.enumFrom k col).foldl (foldStepOpt g) b
      = (validPairsFrom k col).foldl (fun b ai => g b ai.1 ai.2) b := by
  induction col generalizing k b with
  | nil => rfl
  | cons o t ih =>
      cases o with
      | none => simpa [List.enumFrom, validPairsFrom, foldStepOpt] using ih (k + 1) b
      | some a =>
          simpa [List.enumFrom, validPairsFrom, foldStepOpt] using ih (k + 1) (g b a k)

theorem ht_get_insert {K : Type} [BEq K] (ht : HashTableM K) (k k' : K) (v : Nat) :
    ht_get (ht_insert ht k v) k' = ht_get ht k' ++ (if k == k' then [v] else []) := by
  by_cases h : k == k' <;> simp [ht_get, ht_insert, List.filter_append, h]

theorem ht_get_build {α K : Type} [BEq K] (key : α → K) (l : List (α × Nat))
    (ht0 : HashTableM K) (k' : K) :
    ht_get (l.foldl (fun ht ai => ht_insert ht (key ai.1) ai.2) ht0) k'
      = ht_get ht0 k'
        ++ l.filterMap (fun ai => if key ai.1 == k' then some ai.2 else none) := by
  induction l generalizing ht0 with
  | nil => simp
  | cons ai t ih =>
      rw [List.foldl_cons, ih, ht_get_insert]
      by_cases h : key ai.1 == k' <;> simp [h]

theorem zip_replicate_right (l : List Nat) (j : Nat) :
    l.zip (List.replicate l.length j) = l.map (fun li => (li, j)) := by
  induction l with
  | nil => rfl
  | cons x t ih => simp [List.replicate, ih]

theorem probe_fold_zip {α K : Type} [BEq K] (key : α → K) (ht : HashTableM K)
    (r : List (α × Nat)) (acc : List Nat × List Nat)
    (hlen : acc.1.length = acc.2.length) :
    (let res := r.foldl (fun acc ai => probeStep ht acc (key ai.1) ai.2) acc
     res.1.zip res.2
        = acc.1.zip acc.2
          ++ r.flatMap (fun ai => (ht_get ht (key ai.1)).map (fun li => (li, ai.2)))
      ∧ res.1.length = res.2.length) := by
  induction r generalizing acc with
  | nil => simpa using hlen
  | cons ai t ih =>
      simp only [List.foldl_cons, List.flatMap_cons]
      by_cases hrows : (ht_get ht (key ai.1)).isEmpty
      · have hnil : ht_get ht (key ai.1) = [] := by simpa [List.isEmpty_iff] using hrows
        have := ih acc hlen
        simpa [probeStep, hrows, hnil] using this
      · have hstep : probeStep ht acc (key ai.1) ai.2
            = (acc.1 ++ ht_get ht (key ai.1),
               acc.2 ++ List.replicate (ht_get ht (key ai.1)).length ai.2) := by
          simp [probeStep, hrows]
        have hlen' : (acc.1 ++ ht_get ht (key ai.1)).length
            = (acc.2 ++ List.replicate (ht_get ht (key ai.1)).length ai.2).length := by
          simp [hlen]
        have := ih (acc.1 ++ ht_get ht (key ai.1),
          acc.2 ++ List.replicate (ht_get ht (key ai.1)).length ai.2) hlen'
        rw [hstep]
        refine ⟨?_, this.2⟩
        rw [this.1, List.zip_append hlen, zip_replicate_right, List.append_assoc]

theorem enumFrom_filterMap_valid {α γ : Type} (f : α → Nat → Option γ)
    (col : List (Option α)) (k : Nat) :
    (List.enumFrom k col).filterMap
        (fun ia => match ia.2 with | some a => f a ia.1 | none => none)
      = (validPairsFrom k col).filterMap (fun ai => f ai.1 ai.2) := by
  induction col generalizing k with
  | nil => rfl
  | cons o t ih =>
      cases o with
      | none => simpa [List.enumFrom, validPairsFrom] using ih (k + 1)
      | some a =>
          cases hf : f a k <;>
            simpa [List.enumFrom, validPairsFrom, hf] using ih (k + 1)

theorem enumFrom_flatMap_valid {α γ : Type} (F : α → Nat → List γ)
    (col : List (Option α)) (k : Nat) :
    (List.enumFrom k col).flatMap
        (fun jb => match jb.2 with | some b => F b jb.1 | none => [])
      = (validPairsFrom k col).flatMap (fun bj => F bj.1 bj.2) := by
  induction col generalizing k with
  | nil => rfl
  | cons o t ih =>
      cases o with
      | none => simpa [List.enumFrom, validPairsFrom] using ih (k + 1)
      | some b => simpa [List.enumFrom, validPairsFrom] using ih (k + 1)

theorem mem_validPairs {α : Type} {a : α} {idx k : Nat} {col : List (Option α)} :
    (a, idx) ∈ validPairsFrom k col → a ∈ nonNullValues col := by
  induction col generalizing k with
  | nil => intro h; simp [validPairsFrom] at h
  | cons o t ih =>
      cases o with
      | none =>
          intro h
          simp only [validPairsFrom] at h
          simpa [nonNullValues] using ih h
      | some x =>
          intro h
          simp only [validPairsFrom, List.mem_cons] at h
          rcases h with h | h
          · simp [nonNullValues, (Prod.mk.injEq _ _ _ _).mp h |>.1]
          · simpa [nonNullValues] using Or.inr (ih h)

theorem flatMap_congr_mem {α γ : Type} {l : List α} {f g : α → List γ}
    (h : ∀ x ∈ l, f x = g x) : l.flatMap f = l.flatMap g := by
  induction l with
  | nil => rfl
  | cons x t ih =>
      simp only [List.flatMap_cons, h x (List.mem_cons_self x t)]
      rw [ih (fun y hy => h y (List.mem_cons_of_mem x hy))]

theorem filterMap_congr_mem {α γ : Type} {l : List α} {f g : α → Option γ}
    (h : ∀ x ∈ l, f x = g x) : l.filterMap f = l.filterMap g := by
  induction l with
  | nil => rfl
  | cons x t ih =>
      simp only [List.filterMap_cons, h x (List.mem_cons_self x t)]
      rw [ih (fun y hy => h y (List.mem_cons_of_mem x hy))]

/-- The reference join, re-expressed over the valid `(value, row)` pairs of
the two columns. -/
theorem spec_join_pairs_valid {α : Type} (eqk : α → α → Bool) (L R : List (Option α)) :
    spec_join_pairs eqk L R
      = (validPairsFrom 0 R).flatMap (fun bj =>
          (validPairsFrom 0 L).filterMap (fun ai =>
            if eqk ai.1 bj.1 then some (ai.2, bj.2) else none)) := by
  rw [spec_join_pairs]
  show (List.enumFrom 0 R).flatMap _ = _
  rw [enumFrom_flatMap_valid (fun b j => L.enum.filterMap (fun ia =>
    match ia.2 with
    | some a => if eqk a b then some (ia.1, j) else none
    | none => none)) R 0]
  apply flatMap_congr_mem
  intro bj _
  show (List.enumFrom 0 L).filterMap _ = _
  rw [enumFrom_filterMap_valid (fun a i => if eqk a bj.1 then some (i, bj.2) else none) L 0]

/-- The canonical build/probe pair emits exactly the reference join on
"the keys collide" equality. -/
theorem genericJoin_eq_spec {α K : Type} [BEq K] (key : α → K)
    (L R : List (Option α)) :
    (genericProbe key (genericBuild key L) R).1.zip
        (genericProbe key (genericBuild key L) R).2
      = spec_join_pairs (fun a b => key a == key b) L R := by
  have hz := probe_fold_zip key (genericBuild key L) (validPairsFrom 0 R) ([], []) rfl
  rw [genericProbe, hz.1, spec_join_pairs_valid]
  simp only [List.nil_append, List.zip_nil_right]
  apply flatMap_congr_mem
  intro bj _
  rw [genericBuild, ht_get_build key (validPairsFrom 0 L) [] (key bj.1)]
  rw [ht_get]
  simp only [List.filter_nil, List.map_nil, List.nil_append, List.map_filterMap]
  apply filterMap_congr_mem
  intro ai _
  by_cases h : key ai.1 == key bj.1 <;> simp [h]

theorem preprocess_left_int_eq (L : List (Option Int)) :
    preprocess_left_int L = genericBuild id L := by
  rw [preprocess_left_int, zip_valid]
  simp [genericBuild]

theorem probe_int_eq (ht : HashTableM Int) (R : List (Option Int)) :
    probe_int ht R = genericProbe id ht R := by
  rw [probe_int, zip_valid]
  simp [genericProbe]

theorem preprocess_left_fixed_eq (h : Nat → Nat) (L : List (Option Nat)) :
    preprocess_left_fixed h L = genericBuild h L := by
  rw [preprocess_left_fixed, List.enum, enumFrom_fold_valid]
  rfl

theorem probe_fixed_eq (h : Nat → Nat) (ht : HashTableM Nat) (R : List (Option Nat)) :
    probe_fixed h ht R = genericProbe h ht R := by
  rw [probe_fixed, List.enum, enumFrom_fold_valid]
  rfl

theorem preprocess_left_str_eq (h : String → Nat) (L : List (Option String)) :
    preprocess_left_str h L = genericBuild h L := by
  rw [preprocess_left_str, List.enum, enumFrom_fold_valid]
  rfl

theorem probe_str_eq (h : String → Nat) (ht : HashTableM Nat) (R : List (Option String)) :
    probe_str h ht R = genericProbe h ht R := by
  rw [probe_str, List.enum, enumFrom_fold_valid]
  rfl

theorem spec_join_pairs_congr {α : Type} (eqk eqk' : α → α → Bool)
    (L R : List (Option α))
    (h : ∀ a ∈ nonNullValues L, ∀ b ∈ nonNullValues R, eqk a b = eqk' a b) :
    spec_join_pairs eqk L R = spec_join_pairs eqk' L R := by
  rw [spec_join_pairs_valid, spec_join_pairs_valid]
  apply flatMap_congr_mem
  intro bj hbj
  apply filterMap_congr_mem
  intro ai hai
  rw [h ai.1 (mem_validPairs hai) bj.1 (mem_validPairs hbj)]

/-- **C1 (amended).**  The single-key hash inner join emits, in probe
order, exactly the `(left_row, right_row)` pairs whose keys are non-null
and *collide under the branch's key extraction*: for integer keys the
extraction is the value itself, so the join is exactly the equality join;
for fixed-width keys (floats, fixed-size binary) and for string/binary
keys the extraction hashes the byte representation, so the join equals the
join on hash-collision equality — which coincides with the equality join
whenever the hash is collision-free on the keys present (last conjunct,
for strings), and which for float keys compares raw byte patterns rather
than IEEE float equality. -/
theorem inner_join_single_key_characterization :
    (∀ (L R : List (Option Int)),
        inner_join_single_int L R = spec_join_pairs (fun a b => a == b) L R)
    ∧ (∀ (h : Nat → Nat) (L R : List (Option Nat)),
        inner_join_single_fixed h L R = spec_join_pairs (fun a b => h a == h b) L R)
    ∧ (∀ (h : String → Nat) (L R : List (Option String)),
        inner_join_single_str h L R = spec_join_pairs (fun a b => h a == h b) L R)
    ∧ (∀ (h : String → Nat) (L R : List (Option String)),
        (∀ a ∈ nonNullValues L, ∀ b ∈ nonNullValues R, h a = h b → a = b) →
        inner_join_single_str h L R = spec_join_pairs (fun a b => a == b) L R) := by
  have hstr : ∀ (h : String → Nat) (L R : List (Option String)),
      inner_join_single_str h L R = spec_join_pairs (fun a b => h a == h b) L R := by
    intro h L R
    rw [inner_join_single_str, preprocess_left_str_eq, probe_str_eq]
    exact genericJoin_eq_spec h L R
  refine ⟨?_, ?_, hstr, ?_⟩
  · intro L R
    rw [inner_join_single_int, preprocess_left_int_eq, probe_int_eq]
    have := genericJoin_eq_spec (fun a : Int => a) L R
    simpa [id] using this
  · intro h L R
    rw [inner_join_single_fixed, preprocess_left_fixed_eq, probe_fixed_eq]
    exact genericJoin_eq_spec h L R
  · intro h L R hinj
    rw [hstr h L R]
    apply spec_join_pairs_congr
    intro a ha b hb
    by_cases hab : a = b
    · subst hab; simp
    · have : ¬ (h a = h b) := fun hcol => hab (hinj a ha b hb hcol)
      simp [beq_iff_eq, hab, this]

/-- Witness for C1's amended theorem at concrete columns: string keys with
a collision-free hash (the length, on these keys) joined as by key
equality. -/
theorem inner_join_single_key_characterization_witness :
    inner_join_single_str String.length [some "a", none, some "bb"]
        [some "bb", some "a"]
      = spec_join_pairs (fun a b => a == b) [some "a", none, some "bb"]
        [some "bb", some "a"] := by
  exact inner_join_single_key_characterization.2.2.2 String.length
    [some "a", none, some "bb"] [some "bb", some "a"] (by decide)

/-- **C1 (counterexample).**  For float keys the hash join matches byte
patterns, not IEEE-754 float equality: with the left key `-0.0` (pattern
`2^63`) and the right key `+0.0` (pattern `0`) — both non-null and equal
as floats, so the sort-merge equality join emits the pair `(0, 0)` — the
fixed-width branch hashes two different byte slices and emits nothing,
even under an injective (here: identity) stand-in for Python's `hash`. -/
theorem hash_join_float_zero_sign_mismatch :
    inner_join_single_fixed (fun pat => pat) [some negZeroBits] [some 0] = []
    ∧ f64Eq negZeroBits 0 = true
    ∧ spec_join_pairs f64Eq [some negZeroBits] [some 0] = [(0, 0)] := by
  refine ⟨by rfl, by rfl, by rfl⟩

end Opteryx
